import Mathlib

/-! Image jigsaw puzzle (`assets/js/puzzle.js`): board state, layout, gestures.

A shallow embedding of the puzzle engine of `assets/js/puzzle.js` and the
properties established about it.

Conventions of the embedding.

* A JavaScript array of pieces is a `List Piece`; slot indices are natural
  numbers. The destructuring exchange `[a[i], a[j]] = [a[j], a[i]]` is
  `exchange`. For two in-range indices it is exactly the JavaScript
  behaviour. For an out-of-range index JavaScript would grow the array with
  `undefined` entries; the embedding leaves the list as it is there, and
  every statement below that performs an exchange carries the in-range
  condition.
* `Math.random()` is not modelled as a number. The random source is the
  function `rand` giving, for every loop index `i` of `shufflePieces`, the
  index `j = Math.floor(Math.random() * (i + 1))` drawn at that iteration;
  since `Math.random()` lies in `[0, 1)`, such a `j` satisfies `j ≤ i`.
* The layout is embedded twice. `PuzzleRenderer.calculateLayout` carries the
  arithmetic out in exact rational numbers, where a division by zero gives
  `0`; the statements about it concern the algebraic form of the result and
  inputs at which the doubles of the code give the same values.
  `PuzzleRenderer.calculateLayoutF64` rounds every operation to an IEEE 754
  double as JavaScript does and is undefined where the code leaves the finite
  numbers; what depends on rounding is stated about it.
* Calls that only touch the page (`rebuildPuzzle`, `setTimeout`, the
  `onSwap` callback of a gesture handler) are recorded in a log carried by
  the state, so that "was not called" is a statement about that log.
-/

namespace Puzzle

/-! ## State management (`class GameState`) -/

/-- A puzzle piece `{ correctRow, correctCol }`. -/
structure Piece where
  correctRow : Nat
  correctCol : Nat
deriving DecidableEq, Repr

/-- The part of `GameState` that the board operations read and write. -/
structure GameState where
  gridSize : Nat
  pieces : List Piece
deriving DecidableEq, Repr

/-- The exchange `[a[i], a[j]] = [a[j], a[i]]`: the right-hand side is read
first, then `a[i]` and `a[j]` are written in this order. -/
def exchange {α : Type} (l : List α) (i j : Nat) : List α :=
  match l[i]?, l[j]? with
  | some x, some y => (l.set i y).set j x
  | _, _ => l

/-- The nested `for row` / `for col` loops of `initializePieces`, which push
`{ correctRow: row, correctCol: col }` in row-major order. -/
def canonicalPieces (gridSize : Nat) : List Piece :=
  (List.range gridSize).flatMap fun row =>
    (List.range gridSize).map fun col => { correctRow := row, correctCol := col }

/-- The loop `for (let i = k; i > 0; i--)` of `shufflePieces`, where `rand i`
is the index `j` drawn at iteration `i`. -/
def shuffleLoop {α : Type} (rand : Nat → Nat) : Nat → List α → List α
  | 0, l => l
  | i + 1, l => shuffleLoop rand i (exchange l (i + 1) (rand (i + 1)))

/-- `GameState.shufflePieces`: the loop starts at `pieces.length - 1`. -/
def GameState.shufflePieces (rand : Nat → Nat) (s : GameState) : GameState :=
  { s with pieces := shuffleLoop rand (s.pieces.length - 1) s.pieces }

/-- `GameState.initializePieces`. -/
def GameState.initializePieces (rand : Nat → Nat) (s : GameState) : GameState :=
  GameState.shufflePieces rand { s with pieces := canonicalPieces s.gridSize }

/-- `GameState.swapPieces`: the returned boolean and the state afterwards. -/
def GameState.swapPieces (s : GameState) (index1 index2 : Nat) : Bool × GameState :=
  if index1 = index2 then (false, s)
  else (true, { s with pieces := exchange s.pieces index1 index2 })

/-- `GameState.isPuzzleSolved`: `pieces.every((piece, index) => ...)`. -/
def GameState.isPuzzleSolved (s : GameState) : Bool :=
  s.pieces.enum.all fun ip =>
    let expectedRow := ip.1 / s.gridSize
    let expectedCol := ip.1 % s.gridSize
    ip.2.correctRow == expectedRow && ip.2.correctCol == expectedCol

/-- The random source respects `0 ≤ j ≤ i` at every loop index. -/
def ValidRand (rand : Nat → Nat) : Prop := ∀ i, rand i ≤ i

/-- The board states of grid size `N` reachable from `initializePieces` by
calls of `swapPieces` with in-range slot indices. -/
inductive Reachable (N : Nat) : GameState → Prop where
  | init (s : GameState) (rand : Nat → Nat) :
      s.gridSize = N → ValidRand rand → Reachable N (s.initializePieces rand)
  | swap (s : GameState) (index1 index2 : Nat) :
      Reachable N s → index1 < s.pieces.length → index2 < s.pieces.length →
      Reachable N (s.swapPieces index1 index2).2


/-- The choice sequences of a shuffle of `n` elements: component `i` is the
index drawn at loop index `i + 1`, a `j` with `0 ≤ j ≤ i + 1`; the loop
indices are `n - 1, ..., 1`. -/
def ChoiceSeq (n : Nat) : Type := (i : Fin (n - 1)) → Fin (i.val + 2)

instance (n : Nat) : DecidableEq (ChoiceSeq n) :=
  inferInstanceAs (DecidableEq ((i : Fin (n - 1)) → Fin (i.val + 2)))

instance (n : Nat) : Fintype (ChoiceSeq n) :=
  inferInstanceAs (Fintype ((i : Fin (n - 1)) → Fin (i.val + 2)))

/-- The random source that draws the indices of a choice sequence. -/
def ChoiceSeq.toRand {n : Nat} (c : ChoiceSeq n) : Nat → Nat := fun k =>
  if h : 0 < k ∧ k - 1 < n - 1 then (c ⟨k - 1, h.2⟩).val else 0

/-! ## Puzzle renderer (`PuzzleRenderer.calculateLayout`) -/

/-- The fields `gap`, `padding`, `scaleFactor` of `CONFIG.grid`. -/
structure GridConfig where
  gap : ℚ
  padding : ℚ
  scaleFactor : ℚ

/-- The values of `CONFIG.grid` in the source. -/
def CONFIG_grid : GridConfig := { gap := 2, padding := 16, scaleFactor := 5 / 4 }

/-- What `calculateLayout` reads from the page: the bounding rectangle of
`.puzzle-frame` and the size of the window. -/
structure Viewport where
  frameWidth : ℚ
  frameHeight : ℚ
  innerWidth : ℚ
  innerHeight : ℚ

/-- The `width` and `height` of the loaded image. -/
structure Image where
  width : ℚ
  height : ℚ

/-- The object `{ pieceSize, puzzleWidth, puzzleHeight }`. -/
structure Layout where
  pieceSize : ℤ
  puzzleWidth : ℚ
  puzzleHeight : ℚ
deriving DecidableEq

/-- The operator `a || b` on numbers: `b` when `a` is `0`. -/
def jsOr (a b : ℚ) : ℚ := if a = 0 then b else a

/-- Lines 176-194 of `calculateLayout` in exact arithmetic:
`(contentWidth, contentHeight)` before scaling, the image fitted into the
content box. The version in doubles is `fittedContentF64`. -/
def fittedContent (cfg : GridConfig) (vp : Viewport) (image : Image) : ℚ × ℚ :=
  let buffer : ℚ := 40
  let maxWidth := jsOr vp.frameWidth vp.innerWidth - buffer
  let maxHeight := jsOr vp.frameHeight vp.innerHeight - buffer
  let imageRatio := image.width / image.height
  let maxContentWidth := maxWidth - cfg.padding
  let maxContentHeight := maxHeight - cfg.padding
  let containerRatio := maxContentWidth / maxContentHeight
  if imageRatio > containerRatio then
    (maxContentWidth, maxContentWidth / imageRatio)
  else
    (maxContentHeight * imageRatio, maxContentHeight)

/-- Lines 175 and 196-200 of `calculateLayout`:
`(availableWidth, availableHeight)`. -/
def availableSize (cfg : GridConfig) (vp : Viewport) (image : Image) (gridSize : Nat) :
    ℚ × ℚ :=
  let gapTotal : ℚ := ((gridSize : ℚ) - 1) * cfg.gap
  let content := fittedContent cfg vp image
  let contentWidth := content.1 * cfg.scaleFactor
  let contentHeight := content.2 * cfg.scaleFactor
  (contentWidth - gapTotal, contentHeight - gapTotal)

/-- `PuzzleRenderer.calculateLayout` in exact arithmetic. The version in
doubles is `PuzzleRenderer.calculateLayoutF64`. -/
def PuzzleRenderer.calculateLayout (cfg : GridConfig) (vp : Viewport) (image : Image) (gridSize : Nat) :
    Layout :=
  let gapTotal : ℚ := ((gridSize : ℚ) - 1) * cfg.gap
  let available := availableSize cfg vp image gridSize
  let pieceSize : ℤ := ⌊min available.1 available.2 / (gridSize : ℚ)⌋
  let finalContentWidth : ℚ := (pieceSize : ℚ) * (gridSize : ℚ) + gapTotal
  let finalContentHeight : ℚ := (pieceSize : ℚ) * (gridSize : ℚ) + gapTotal
  { pieceSize := pieceSize
    puzzleWidth := finalContentWidth + cfg.padding
    puzzleHeight := finalContentHeight + cfg.padding }

/-- Lines 176-183 of `calculateLayout`: `(maxContentWidth, maxContentHeight)`,
the content box `(width - 40 - padding, height - 40 - padding)` of the
viewport, where `width` is `frameRect.width || window.innerWidth` and
`height` likewise. -/
def contentBox (cfg : GridConfig) (vp : Viewport) : ℚ × ℚ :=
  (jsOr vp.frameWidth vp.innerWidth - 40 - cfg.padding,
    jsOr vp.frameHeight vp.innerHeight - 40 - cfg.padding)

/-- Specification side, not taken from the code: `(cw, ch)` is an
aspect-ratio-preserving fit of the image inside the box. It stays inside the
box, has the image's ratio, and one of the two bounds is tight. -/
def SpecAspectFit (box : ℚ × ℚ) (image : Image) (cw ch : ℚ) : Prop :=
  cw ≤ box.1 ∧ ch ≤ box.2 ∧ cw / ch = image.width / image.height ∧ (cw = box.1 ∨ ch = box.2)

instance (box : ℚ × ℚ) (image : Image) (cw ch : ℚ) : Decidable (SpecAspectFit box image cw ch) :=
  inferInstanceAs (Decidable (cw ≤ box.1 ∧ ch ≤ box.2 ∧
    cw / ch = image.width / image.height ∧ (cw = box.1 ∨ ch = box.2)))

/-- Specification side, not taken from the code: the tile size as the
minimum of the two per-dimension candidate sizes
`floor ((s * cw - G) / n)` and `floor ((s * ch - G) / n)`, with
`G = gap * (n - 1)` and `s = scaleFactor`. -/
def specTileSize (cfg : GridConfig) (gridSize : Nat) (cw ch : ℚ) : ℤ :=
  min ⌊(cfg.scaleFactor * cw - cfg.gap * ((gridSize : ℚ) - 1)) / (gridSize : ℚ)⌋
    ⌊(cfg.scaleFactor * ch - cfg.gap * ((gridSize : ℚ) - 1)) / (gridSize : ℚ)⌋

/-! ## The layout in double-precision arithmetic

JavaScript numbers are IEEE 754 binary64 values and `+`, `-`, `*`, `/` return
the exact result rounded to the nearest such value, ties to even. A finite
double is represented by the rational number it denotes. An operation whose
result is not a finite number (an infinity after overflow, or the infinity or
`NaN` of a division by zero) returns `none`, and the layout in doubles is
undefined from there on. The sign of a zero is not tracked: it only shows in
a division by zero. `Math.floor`, `Math.min` and comparisons are exact. -/

/-- The integer nearest to `q`, the even one of the two when `q` lies halfway
between two integers. -/
def roundHalfEven (q : ℚ) : ℤ :=
  if q - ⌊q⌋ < 1 / 2 then ⌊q⌋
  else if 1 / 2 < q - ⌊q⌋ then ⌊q⌋ + 1
  else if ⌊q⌋ % 2 = 0 then ⌊q⌋ else ⌊q⌋ + 1

/-- The exponent `e` of the binary64 binade of `q`: `2 ^ e ≤ |q| < 2 ^ (e + 1)`,
and `-1022` in the subnormal range. -/
def f64Exponent (q : ℚ) : ℤ := max (Int.log 2 |q|) (-1022)

/-- Rounding to binary64, round to nearest, ties to even: the significand has
53 bits, so the spacing of doubles in the binade of exponent `e` is
`2 ^ (e - 52)`. The exponent is not bounded above here; `toF64` checks the
overflow. -/
def roundF64 (q : ℚ) : ℚ :=
  (roundHalfEven (q / 2 ^ (f64Exponent q - 52)) : ℚ) * 2 ^ (f64Exponent q - 52)

/-- The double an exact result `q` is rounded to, `none` when it overflows to
an infinity. -/
def toF64 (q : ℚ) : Option ℚ :=
  if |roundF64 q| < 2 ^ (1024 : ℤ) then some (roundF64 q) else none

/-- The operator `a + b` on doubles. -/
def f64Add (a b : ℚ) : Option ℚ := toF64 (a + b)

/-- The operator `a - b` on doubles. -/
def f64Sub (a b : ℚ) : Option ℚ := toF64 (a - b)

/-- The operator `a * b` on doubles. -/
def f64Mul (a b : ℚ) : Option ℚ := toF64 (a * b)

/-- The operator `a / b` on doubles; a division by zero gives no finite
number. -/
def f64Div (a b : ℚ) : Option ℚ := if b = 0 then none else toF64 (a / b)

/-- Lines 176-183 of `calculateLayout` in doubles:
`(maxContentWidth, maxContentHeight)`. -/
def contentBoxF64 (cfg : GridConfig) (vp : Viewport) : Option (ℚ × ℚ) := do
  let buffer : ℚ := 40
  let maxWidth ← f64Sub (jsOr vp.frameWidth vp.innerWidth) buffer
  let maxHeight ← f64Sub (jsOr vp.frameHeight vp.innerHeight) buffer
  let maxContentWidth ← f64Sub maxWidth cfg.padding
  let maxContentHeight ← f64Sub maxHeight cfg.padding
  pure (maxContentWidth, maxContentHeight)

/-- Lines 176-194 of `calculateLayout` in doubles:
`(contentWidth, contentHeight)` before scaling. -/
def fittedContentF64 (cfg : GridConfig) (vp : Viewport) (image : Image) : Option (ℚ × ℚ) := do
  let box ← contentBoxF64 cfg vp
  let imageRatio ← f64Div image.width image.height
  let containerRatio ← f64Div box.1 box.2
  if imageRatio > containerRatio then do
    let contentHeight ← f64Div box.1 imageRatio
    pure (box.1, contentHeight)
  else do
    let contentWidth ← f64Mul box.2 imageRatio
    pure (contentWidth, box.2)

/-- Line 175 of `calculateLayout` in doubles: `gapTotal`. -/
def gapTotalF64 (cfg : GridConfig) (gridSize : Nat) : Option ℚ := do
  let gridSizeMinusOne ← f64Sub (gridSize : ℚ) 1
  f64Mul gridSizeMinusOne cfg.gap

/-- Lines 196-200 of `calculateLayout` in doubles:
`(availableWidth, availableHeight)`. -/
def availableSizeF64 (cfg : GridConfig) (vp : Viewport) (image : Image) (gridSize : Nat) :
    Option (ℚ × ℚ) := do
  let gapTotal ← gapTotalF64 cfg gridSize
  let content ← fittedContentF64 cfg vp image
  let contentWidth ← f64Mul content.1 cfg.scaleFactor
  let contentHeight ← f64Mul content.2 cfg.scaleFactor
  let availableWidth ← f64Sub contentWidth gapTotal
  let availableHeight ← f64Sub contentHeight gapTotal
  pure (availableWidth, availableHeight)

/-- `PuzzleRenderer.calculateLayout` in doubles, every arithmetic operation
of lines 172-210 rounded as JavaScript rounds it. -/
def PuzzleRenderer.calculateLayoutF64 (cfg : GridConfig) (vp : Viewport) (image : Image)
    (gridSize : Nat) : Option Layout := do
  let gapTotal ← gapTotalF64 cfg gridSize
  let available ← availableSizeF64 cfg vp image gridSize
  let quotient ← f64Div (min available.1 available.2) (gridSize : ℚ)
  let pieceSize : ℤ := ⌊quotient⌋
  let product ← f64Mul (pieceSize : ℚ) (gridSize : ℚ)
  let finalContentWidth ← f64Add product gapTotal
  let finalContentHeight ← f64Add product gapTotal
  let puzzleWidth ← f64Add finalContentWidth cfg.padding
  let puzzleHeight ← f64Add finalContentHeight cfg.padding
  pure { pieceSize := pieceSize, puzzleWidth := puzzleWidth, puzzleHeight := puzzleHeight }

/-! ## Main game controller (`class PuzzleGame`) -/

/-- The calls of the controller that act on the page or on the timer queue. -/
inductive Effect where
  /-- `rebuildPuzzle()` rendered these pieces. -/
  | rebuildPuzzle (pieces : List Piece)
  /-- `isPuzzleSolved()` was evaluated, with this result. -/
  | isPuzzleSolved (result : Bool)
  /-- `setTimeout(() => this.handleWin(), CONFIG.animation.winDelay)`. -/
  | scheduleWin
  /-- `handleWin()` ran `renderer.showWinAnimation()`. -/
  | showWinAnimation
deriving DecidableEq, Repr

/-- The controller: its `GameState`, the log of its calls (oldest first) and
the number of `handleWin` timers that are scheduled and have not fired. -/
structure PuzzleGame where
  state : GameState
  effects : List Effect
  pendingWins : Nat
deriving DecidableEq, Repr

/-- `PuzzleGame.rebuildPuzzle`. -/
def PuzzleGame.rebuildPuzzle (g : PuzzleGame) : PuzzleGame :=
  { g with effects := g.effects ++ [Effect.rebuildPuzzle g.state.pieces] }

/-- `PuzzleGame.handlePieceSwap`. -/
def PuzzleGame.handlePieceSwap (g : PuzzleGame) (index1 index2 : Nat) : PuzzleGame :=
  let r := g.state.swapPieces index1 index2
  let g1 : PuzzleGame := { g with state := r.2 }
  if r.1 = false then g1
  else
    let g2 := g1.rebuildPuzzle
    let solved := g2.state.isPuzzleSolved
    let g3 : PuzzleGame := { g2 with effects := g2.effects ++ [Effect.isPuzzleSolved solved] }
    if solved = true then
      { g3 with effects := g3.effects ++ [Effect.scheduleWin], pendingWins := g3.pendingWins + 1 }
    else g3

/-- `PuzzleGame.handleWin`. -/
def PuzzleGame.handleWin (g : PuzzleGame) : PuzzleGame :=
  { g with effects := g.effects ++ [Effect.showWinAnimation] }

/-- A scheduled `handleWin` timer fires. -/
def PuzzleGame.fireWinTimer (g : PuzzleGame) : PuzzleGame :=
  if g.pendingWins = 0 then g
  else PuzzleGame.handleWin { g with pendingWins := g.pendingWins - 1 }

/-- The game has left the Playing phase: a transition to Won is scheduled
(a `handleWin` timer is pending) or taken (`handleWin` has run). The source
keeps no phase variable; this is read off the timers and the log. -/
def PuzzleGame.winScheduledOrTaken (g : PuzzleGame) : Bool :=
  decide (0 < g.pendingWins) || decide (Effect.showWinAnimation ∈ g.effects)

/-! ## Gesture handlers (`class DragDropHandler`, `class TouchHandler`) -/

/-- A DOM element that can be the target of an event: its identity and, for
an element of class `puzzle-piece`, its `dataset.index`. Pieces are created
by `createPieceElement` without children, so a piece is the only element
whose `closest('.puzzle-piece')` is not `null`, and it is itself. -/
structure Elem where
  id : Nat
  index : Option Nat
deriving DecidableEq, Repr

/-- `element.classList.contains('puzzle-piece')`. -/
def Elem.isPiece (e : Elem) : Bool := e.index.isSome

/-- `element.closest('.puzzle-piece')`. -/
def Elem.closestPiece (e : Elem) : Option Elem := if e.isPiece then some e else none

/-- A value held by `draggedIndex` or passed to `onSwap`. -/
inductive IndexVal where
  | null
  | nan
  | num (n : Nat)
deriving DecidableEq, Repr

/-- `isNaN(v)`; `isNaN(null)` is `false`. -/
def IndexVal.isNaN : IndexVal → Bool
  | IndexVal.nan => true
  | _ => false

/-- `parseInt(element.dataset.index, 10)`. -/
def parseIndex (e : Elem) : IndexVal :=
  match e.index with
  | some k => IndexVal.num k
  | none => IndexVal.nan

/-- The classes the handlers set: the pieces of the grid that carry
`highlight`, and the elements that carry `dragging`. -/
structure Dom where
  highlight : List Elem
  dragging : List Elem
deriving DecidableEq, Repr

/-- `DOMManager.clearHighlights`: removes `highlight` from every piece. -/
def Dom.clearHighlights (d : Dom) : Dom := { d with highlight := [] }

/-- `element.classList.add('highlight')`. -/
def Dom.addHighlight (d : Dom) (e : Elem) : Dom :=
  { d with highlight := if e ∈ d.highlight then d.highlight else e :: d.highlight }

/-- `element.classList.remove('highlight')`. -/
def Dom.removeHighlight (d : Dom) (e : Elem) : Dom :=
  { d with highlight := d.highlight.filter fun x => decide (x ≠ e) }

/-- `element.classList.add('dragging')`. -/
def Dom.addDragging (d : Dom) (e : Elem) : Dom :=
  { d with dragging := if e ∈ d.dragging then d.dragging else e :: d.dragging }

/-- `element.classList.remove('dragging')`. -/
def Dom.removeDragging (d : Dom) (e : Elem) : Dom :=
  { d with dragging := d.dragging.filter fun x => decide (x ≠ e) }

/-- `DragDropHandler`: its fields, the calls of `onSwap` made so far (oldest
first) and the targets of the `setTimeout` callbacks of `handleDragStart`
that have not run yet. -/
structure DragDropHandler where
  dom : Dom
  draggedElement : Option Elem
  draggedIndex : IndexVal
  onSwapCalls : List (IndexVal × IndexVal)
  pendingTimeouts : List Elem
deriving DecidableEq, Repr

/-- `DragDropHandler.handleDragStart`. -/
def DragDropHandler.handleDragStart (h : DragDropHandler) (target : Elem) :
    DragDropHandler :=
  { h with
    draggedElement := some target
    draggedIndex := parseIndex target
    pendingTimeouts := h.pendingTimeouts ++ [target] }

/-- The callback `() => { if (this.draggedElement) event.target.classList.add('dragging') }`
scheduled first among those pending runs. -/
def DragDropHandler.runTimeout (h : DragDropHandler) : DragDropHandler :=
  match h.pendingTimeouts with
  | [] => h
  | target :: rest =>
    let h1 := { h with pendingTimeouts := rest }
    if h1.draggedElement.isSome then { h1 with dom := h1.dom.addDragging target } else h1

/-- `DragDropHandler.handleDragOver`. -/
def DragDropHandler.handleDragOver (h : DragDropHandler) (target : Elem) : DragDropHandler :=
  let h1 := { h with dom := h.dom.clearHighlights }
  if target.isPiece = true ∧ some target ≠ h1.draggedElement then
    { h1 with dom := h1.dom.addHighlight target }
  else h1

/-- `DragDropHandler.handleDragEnter`. -/
def DragDropHandler.handleDragEnter (h : DragDropHandler) (target : Elem) : DragDropHandler :=
  if target.isPiece = true ∧ some target ≠ h.draggedElement then
    { h with dom := h.dom.addHighlight target }
  else h

/-- `DragDropHandler.handleDragLeave`. -/
def DragDropHandler.handleDragLeave (h : DragDropHandler) (target : Elem) : DragDropHandler :=
  if target.isPiece = true then { h with dom := h.dom.removeHighlight target } else h

/-- `DragDropHandler.handleDrop`. -/
def DragDropHandler.handleDrop (h : DragDropHandler) (eventTarget : Elem) : DragDropHandler :=
  let h1 :=
    match eventTarget.closestPiece with
    | some target =>
      if some target ≠ h.draggedElement ∧ h.draggedElement.isSome = true then
        let targetIndex := parseIndex target
        if h.draggedIndex.isNaN = false ∧ targetIndex.isNaN = false then
          { h with onSwapCalls := h.onSwapCalls ++ [(h.draggedIndex, targetIndex)] }
        else h
      else h
    | none => h
  { h1 with dom := h1.dom.clearHighlights }

/-- `DragDropHandler.handleDragEnd`. -/
def DragDropHandler.handleDragEnd (h : DragDropHandler) (target : Elem) : DragDropHandler :=
  { h with
    dom := (h.dom.removeDragging target).clearHighlights
    draggedElement := none
    draggedIndex := IndexVal.null }

/-- What can happen between `dragstart` and `drop`. -/
inductive DragStep where
  | dragover (target : Elem)
  | dragenter (target : Elem)
  | dragleave (target : Elem)
  | timeout
deriving DecidableEq, Repr

/-- The handler run for one step between `dragstart` and `drop`. -/
def DragDropHandler.step (h : DragDropHandler) : DragStep → DragDropHandler
  | DragStep.dragover t => h.handleDragOver t
  | DragStep.dragenter t => h.handleDragEnter t
  | DragStep.dragleave t => h.handleDragLeave t
  | DragStep.timeout => h.runTimeout

/-- A drag gesture: `dragstart` on `source`, the steps in between, `drop` on
`dropTarget`, `dragend` on `source`. -/
def DragDropHandler.gesture (h : DragDropHandler) (source : Elem) (between : List DragStep)
    (dropTarget : Elem) : DragDropHandler :=
  (((between.foldl DragDropHandler.step (h.handleDragStart source)).handleDrop
    dropTarget).handleDragEnd source)

/-- The `clientX`, `clientY` of a touch point. -/
structure Touch where
  clientX : ℚ
  clientY : ℚ

/-- `TouchHandler`: its fields and the calls of `onSwap` made so far. -/
structure TouchHandler where
  dom : Dom
  touchPiece : Option Elem
  touchStartX : ℚ
  touchStartY : ℚ
  onSwapCalls : List (IndexVal × IndexVal)

/-- `TouchHandler.handleTouchStart`, for `event.target` and `event.touches[0]`. -/
def TouchHandler.handleTouchStart (h : TouchHandler) (eventTarget : Elem) (touch : Touch) :
    TouchHandler :=
  match eventTarget.closestPiece with
  | none => h
  | some target =>
    { h with
      touchPiece := some target
      touchStartX := touch.clientX
      touchStartY := touch.clientY
      dom := h.dom.addDragging target }

/-- `TouchHandler.handleTouchMove`, for `event.touches[0]` and the result of
`document.elementFromPoint` at that point. -/
def TouchHandler.handleTouchMove (h : TouchHandler) (touch : Touch)
    (elementFromPoint : Option Elem) : TouchHandler :=
  match h.touchPiece with
  | none => h
  | some touchPiece =>
    let dx := |touch.clientX - h.touchStartX|
    let dy := |touch.clientY - h.touchStartY|
    if dx ≤ 10 ∧ dy ≤ 10 then h
    else
      let target := elementFromPoint.bind Elem.closestPiece
      let h1 := { h with dom := h.dom.clearHighlights }
      match target with
      | some t => if t ≠ touchPiece then { h1 with dom := h1.dom.addHighlight t } else h1
      | none => h1

/-- `TouchHandler.handleTouchEnd`, for `event.changedTouches[0]` and the
result of `document.elementFromPoint` at that point. -/
def TouchHandler.handleTouchEnd (h : TouchHandler) (_touch : Touch)
    (elementFromPoint : Option Elem) : TouchHandler :=
  match h.touchPiece with
  | none => h
  | some touchPiece =>
    let target := elementFromPoint.bind Elem.closestPiece
    let h1 :=
      match target with
      | some t =>
        if t ≠ touchPiece then
          let index1 := parseIndex touchPiece
          let index2 := parseIndex t
          if index1.isNaN = false ∧ index2.isNaN = false then
            { h with onSwapCalls := h.onSwapCalls ++ [(index1, index2)] }
          else h
        else h
      | none => h
    { h1 with
      dom := (h1.dom.removeDragging touchPiece).clearHighlights
      touchPiece := none }

/-- A `touchmove`: the touch point and the element under it. -/
structure TouchMove where
  touch : Touch
  elementFromPoint : Option Elem

/-- A touch gesture: `touchstart` on `source`, the `touchmove`s, `touchend`
with `endElement` under the finger. -/
def TouchHandler.gesture (h : TouchHandler) (source : Elem) (start : Touch)
    (moves : List TouchMove) (endTouch : Touch) (endElement : Option Elem) : TouchHandler :=
  (moves.foldl (fun acc m => acc.handleTouchMove m.touch m.elementFromPoint)
    (h.handleTouchStart source start)).handleTouchEnd endTouch endElement

/-! ## Lemmas on `exchange` -/

theorem exchange_length {α : Type} (l : List α) (i j : Nat) :
    (exchange l i j).length = l.length := by
  unfold exchange
  split <;> simp

theorem exchange_eq_set {α : Type} (l : List α) (i j : Nat) (hi : i < l.length)
    (hj : j < l.length) : exchange l i j = (l.set i l[j]).set j l[i] := by
  unfold exchange
  rw [List.getElem?_eq_getElem hi, List.getElem?_eq_getElem hj]

theorem exchange_perm {α : Type} [DecidableEq α] (l : List α) (i j : Nat) :
    (exchange l i j).Perm l := by
  by_cases hi : i < l.length
  · by_cases hj : j < l.length
    · rw [exchange_eq_set l i j hi hj]
      refine List.perm_iff_count.2 fun a => ?_
      rw [List.count_set _ _ _ _ (by simpa using hj), List.count_set _ _ _ _ hi]
      have h1 : (if l[i] == a then 1 else 0) ≤ l.count a := by
        split
        · rename_i h
          have : l[i] = a := by simpa using h
          exact List.count_pos_iff.2 (this ▸ List.getElem_mem _)
        · exact Nat.zero_le _
      have h2 : (if l[j] == a then 1 else 0) ≤ l.count a := by
        split
        · rename_i h
          have : l[j] = a := by simpa using h
          exact List.count_pos_iff.2 (this ▸ List.getElem_mem _)
        · exact Nat.zero_le _
      by_cases hij : i = j
      · subst hij
        simp only [List.getElem_set_self]
        omega
      · rw [List.getElem_set_ne hij]
        omega
    · unfold exchange
      rw [List.getElem?_eq_none (by omega : l.length ≤ j)]
      split <;> simp_all
  · unfold exchange
    rw [List.getElem?_eq_none (by omega : l.length ≤ i)]

/-! ## Lemmas on the canonical tile set -/

theorem rowMajor_eq_map (n m : Nat) :
    ((List.range m).flatMap fun row =>
        (List.range n).map fun col => ({ correctRow := row, correctCol := col } : Piece))
      = (List.range (m * n)).map fun i => { correctRow := i / n, correctCol := i % n } := by
  induction m with
  | zero => simp
  | succ m ih =>
    rw [List.range_succ, List.flatMap_append, ih, Nat.succ_mul, List.range_add, List.map_append]
    congr 1
    simp only [List.flatMap_cons, List.flatMap_nil, List.append_nil, List.map_map]
    refine List.map_congr_left fun j hj => ?_
    have hj' : j < n := List.mem_range.1 hj
    have hn : 0 < n := by omega
    simp only [Function.comp_apply]
    rw [Nat.mul_comm m n, Nat.mul_add_div hn, Nat.mul_add_mod, Nat.div_eq_of_lt hj',
      Nat.mod_eq_of_lt hj']
    simp

theorem canonicalPieces_eq_map (n : Nat) :
    canonicalPieces n
      = (List.range (n * n)).map fun i => { correctRow := i / n, correctCol := i % n } :=
  rowMajor_eq_map n n

theorem canonicalPieces_length (n : Nat) : (canonicalPieces n).length = n * n := by
  simp [canonicalPieces_eq_map]

theorem canonicalPieces_getElem (n i : Nat) (h : i < (canonicalPieces n).length) :
    (canonicalPieces n)[i] = { correctRow := i / n, correctCol := i % n } := by
  simp [canonicalPieces_eq_map]

theorem canonicalPieces_nodup (n : Nat) : (canonicalPieces n).Nodup := by
  rw [canonicalPieces_eq_map]
  refine (List.nodup_range _).map_on fun i hi j hj hij => ?_
  have h1 : i / n = j / n := congrArg Piece.correctRow hij
  have h2 : i % n = j % n := congrArg Piece.correctCol hij
  rw [← Nat.div_add_mod i n, ← Nat.div_add_mod j n, h1, h2]

theorem mem_canonicalPieces (n : Nat) (p : Piece) :
    p ∈ canonicalPieces n ↔ p.correctRow < n ∧ p.correctCol < n := by
  unfold canonicalPieces
  simp only [List.mem_flatMap, List.mem_map, List.mem_range]
  constructor
  · rintro ⟨r, hr, c, hc, rfl⟩
    exact ⟨hr, hc⟩
  · rintro ⟨hr, hc⟩
    exact ⟨p.correctRow, hr, p.correctCol, hc, rfl⟩

/-! ## Lemmas on the shuffle loop -/

theorem shuffleLoop_length {α : Type} (rand : Nat → Nat) (k : Nat) (l : List α) :
    (shuffleLoop rand k l).length = l.length := by
  induction k generalizing l with
  | zero => rfl
  | succ k ih => rw [shuffleLoop, ih, exchange_length]

theorem shuffleLoop_perm {α : Type} [DecidableEq α] (rand : Nat → Nat) (k : Nat)
    (l : List α) : (shuffleLoop rand k l).Perm l := by
  induction k generalizing l with
  | zero => exact List.Perm.refl _
  | succ k ih =>
    rw [shuffleLoop]
    exact (ih _).trans (exchange_perm _ _ _)

/-- A list is a permutation of the canonical tile set exactly in the sense of
the board invariant: the right length, and every in-range pair once. -/
theorem perm_canonical_count {n : Nat} {l : List Piece}
    (h : l.Perm (canonicalPieces n)) :
    l.length = n * n ∧
      ∀ r c, r < n → c < n → l.count { correctRow := r, correctCol := c } = 1 := by
  refine ⟨by rw [h.length_eq, canonicalPieces_length], fun r c hr hc => ?_⟩
  rw [h.count_eq]
  exact List.count_eq_one_of_mem (canonicalPieces_nodup n)
    ((mem_canonicalPieces n _).2 ⟨hr, hc⟩)

/-! ## Lemmas on `isPuzzleSolved` -/

theorem isPuzzleSolved_iff_getElem (s : GameState) :
    s.isPuzzleSolved = true ↔
      ∀ (i : Nat) (h : i < s.pieces.length),
        s.pieces[i] = { correctRow := i / s.gridSize, correctCol := i % s.gridSize } := by
  unfold GameState.isPuzzleSolved
  rw [List.all_eq_true]
  constructor
  · intro hall i hi
    have hmem : (i, s.pieces[i]) ∈ s.pieces.enum :=
      List.mk_mem_enum_iff_getElem?.2 (List.getElem?_eq_getElem hi)
    have := hall _ hmem
    simp only [Bool.and_eq_true, beq_iff_eq] at this
    cases hp : s.pieces[i] with
    | mk r c =>
      rw [hp] at this
      simp only at this
      rw [this.1, this.2]
  · intro hget ip hip
    have hlt : ip.1 < s.pieces.length := List.fst_lt_of_mem_enum hip
    have h2 : s.pieces[ip.1]? = some ip.2 := List.mem_enum_iff_getElem?.1 hip
    rw [List.getElem?_eq_getElem hlt] at h2
    have h3 : ip.2 = s.pieces[ip.1] := (Option.some.inj h2).symm
    simp only [Bool.and_eq_true, beq_iff_eq]
    rw [h3, hget ip.1 hlt]
    exact ⟨rfl, rfl⟩

theorem isPuzzleSolved_iff_eq (s : GameState)
    (hlen : s.pieces.length = s.gridSize * s.gridSize) :
    s.isPuzzleSolved = true ↔ s.pieces = canonicalPieces s.gridSize := by
  rw [isPuzzleSolved_iff_getElem]
  constructor
  · intro h
    refine List.ext_getElem (by rw [hlen, canonicalPieces_length]) fun i h1 h2 => ?_
    rw [h i h1, canonicalPieces_getElem]
  · intro h i hi
    have hi' : i < (canonicalPieces s.gridSize).length := by rw [← h]; exact hi
    have : s.pieces[i] = (canonicalPieces s.gridSize)[i] := by simp only [h]
    rw [this, canonicalPieces_getElem]

theorem exchange_getElem? {α : Type} (l : List α) (a b : Nat) (ha : a < l.length)
    (hb : b < l.length) (i : Nat) :
    (exchange l a b)[i]? = if b = i then l[a]? else if a = i then l[b]? else l[i]? := by
  rw [exchange_eq_set l a b ha hb, List.getElem?_set, List.getElem?_set]
  by_cases hbi : b = i
  · subst hbi
    simp [ha, hb]
  · by_cases hai : a = i
    · subst hai
      simp [hbi, ha, hb]
    · simp [hbi, hai]

theorem exchange_ne_of_nodup {α : Type} (l : List α) (hnd : l.Nodup) (a b : Nat)
    (ha : a < l.length) (hb : b < l.length) (hab : a ≠ b) : exchange l a b ≠ l := by
  intro heq
  have h1 := exchange_getElem? l a b ha hb a
  rw [heq, if_neg (Ne.symm hab), if_pos rfl, List.getElem?_eq_getElem ha,
    List.getElem?_eq_getElem hb] at h1
  exact hab ((List.Nodup.getElem_inj_iff hnd).1 (Option.some.inj h1))

theorem exchange_exchange {α : Type} (l : List α) (a b : Nat) (ha : a < l.length)
    (hb : b < l.length) : exchange (exchange l a b) a b = l := by
  have ha' : a < (exchange l a b).length := by rw [exchange_length]; exact ha
  have hb' : b < (exchange l a b).length := by rw [exchange_length]; exact hb
  refine List.ext_getElem? fun i => ?_
  rw [exchange_getElem? _ a b ha' hb', exchange_getElem? l a b ha hb,
    exchange_getElem? l a b ha hb, exchange_getElem? l a b ha hb]
  by_cases hbi : b = i
  · subst hbi
    by_cases hab : a = b
    · subst hab
      simp
    · have hba : ¬ b = a := fun h => hab h.symm
      simp [hab, hba]
  · by_cases hai : a = i
    · subst hai
      simp [hbi]
    · simp [hbi, hai]

theorem initializePieces_perm (s : GameState) (rand : Nat → Nat) :
    (s.initializePieces rand).pieces.Perm (canonicalPieces s.gridSize) :=
  shuffleLoop_perm rand _ _

theorem swapPieces_perm (s : GameState) (a b : Nat) :
    (s.swapPieces a b).2.pieces.Perm s.pieces := by
  unfold GameState.swapPieces
  split
  · exact List.Perm.refl _
  · exact exchange_perm _ _ _

theorem swapPieces_gridSize (s : GameState) (a b : Nat) :
    (s.swapPieces a b).2.gridSize = s.gridSize := by
  unfold GameState.swapPieces
  split <;> rfl

theorem reachable_perm {N : Nat} {s : GameState} (h : Reachable N s) :
    s.gridSize = N ∧ s.pieces.Perm (canonicalPieces N) := by
  induction h with
  | init s rand hN _ => exact ⟨hN, hN ▸ initializePieces_perm s rand⟩
  | swap s a b _ _ _ ih =>
    exact ⟨(swapPieces_gridSize s a b).trans ih.1, (swapPieces_perm s a b).trans ih.2⟩

/-! ## The shuffle as a map from choice sequences to arrangements -/

theorem exchange_getElem?_of_ne {α : Type} (l : List α) (a b m : Nat) (hma : m ≠ a)
    (hmb : m ≠ b) : (exchange l a b)[m]? = l[m]? := by
  unfold exchange
  split
  · rw [List.getElem?_set, List.getElem?_set]
    simp [Ne.symm hma, Ne.symm hmb]
  · rfl

theorem shuffleLoop_congr {α : Type} (r1 r2 : Nat → Nat) (k : Nat) (l : List α)
    (h : ∀ i, 1 ≤ i → i ≤ k → r1 i = r2 i) : shuffleLoop r1 k l = shuffleLoop r2 k l := by
  induction k generalizing l with
  | zero => rfl
  | succ k ih =>
    rw [shuffleLoop, shuffleLoop, h (k + 1) (by omega) (by omega)]
    exact ih _ fun i h1 h2 => h i h1 (by omega)

theorem shuffleLoop_getElem?_gt {α : Type} (rand : Nat → Nat) (hr : ValidRand rand)
    (k : Nat) (l : List α) (m : Nat) (hm : k < m) : (shuffleLoop rand k l)[m]? = l[m]? := by
  induction k generalizing l with
  | zero => rfl
  | succ k ih =>
    have hj := hr (k + 1)
    rw [shuffleLoop, ih _ (by omega),
      exchange_getElem?_of_ne l (k + 1) (rand (k + 1)) m (by omega) (by omega)]

theorem exchange_getElem?_left {α : Type} (l : List α) (a b : Nat) (ha : a < l.length)
    (hb : b < l.length) : (exchange l a b)[a]? = l[b]? := by
  rw [exchange_getElem? l a b ha hb]
  by_cases h : b = a
  · rw [if_pos h, h]
  · rw [if_neg h, if_pos rfl]

theorem getElem?_inj_of_nodup {α : Type} {l : List α} (hnd : l.Nodup) {i j : Nat}
    (hi : i < l.length) (h : l[i]? = l[j]?) : i = j := by
  have hj : j < l.length := by
    by_contra hj
    rw [List.getElem?_eq_getElem hi, List.getElem?_eq_none (by omega)] at h
    exact Option.noConfusion h
  rw [List.getElem?_eq_getElem hi, List.getElem?_eq_getElem hj] at h
  exact (List.Nodup.getElem_inj_iff hnd).1 (Option.some.inj h)

/-- Two valid random sources that shuffle a duplicate-free list to the same
arrangement drew the same index at every loop index. -/
theorem shuffleLoop_injective {α : Type} [DecidableEq α] (r1 r2 : Nat → Nat)
    (h1 : ValidRand r1) (h2 : ValidRand r2) (k : Nat) (l : List α) (hnd : l.Nodup)
    (hk : k ≤ l.length - 1) (heq : shuffleLoop r1 k l = shuffleLoop r2 k l) :
    ∀ i, 1 ≤ i → i ≤ k → r1 i = r2 i := by
  induction k generalizing l with
  | zero => intro i hi1 hi2; omega
  | succ k ih =>
    have hlen : k + 1 < l.length := by omega
    have hj1 := h1 (k + 1)
    have hj2 := h2 (k + 1)
    rw [shuffleLoop, shuffleLoop] at heq
    have hpos := congrArg (fun x => x[k + 1]?) heq
    simp only at hpos
    rw [shuffleLoop_getElem?_gt r1 h1 k _ (k + 1) (by omega),
      shuffleLoop_getElem?_gt r2 h2 k _ (k + 1) (by omega),
      exchange_getElem?_left l _ _ hlen (by omega),
      exchange_getElem?_left l _ _ hlen (by omega)] at hpos
    have hjj : r1 (k + 1) = r2 (k + 1) := getElem?_inj_of_nodup hnd (by omega) hpos
    rw [hjj] at heq
    have hnd' : (exchange l (k + 1) (r2 (k + 1))).Nodup :=
      (exchange_perm l _ _).nodup_iff.2 hnd
    have ih' := ih _ hnd' (by rw [exchange_length]; omega) heq
    intro i hi1 hi2
    by_cases hik : i = k + 1
    · rw [hik, hjj]
    · exact ih' i hi1 (by omega)

theorem perm_pick {α : Type} {p l : List α} (hp : p.Perm l) (hnd : l.Nodup) (k : Nat)
    (hk : k < l.length) (hfix : ∀ m, k < m → p[m]? = l[m]?) :
    ∃ j, j ≤ k ∧ l[j]? = p[k]? := by
  have hkp : k < p.length := by rw [hp.length_eq]; exact hk
  have hmem : p[k] ∈ l := hp.subset (List.getElem_mem hkp)
  obtain ⟨j, hj, hjk⟩ := List.getElem_of_mem hmem
  refine ⟨j, ?_, by rw [List.getElem?_eq_getElem hj, List.getElem?_eq_getElem hkp, hjk]⟩
  by_contra hgt
  have h1 : p[j]? = p[k]? := by
    rw [hfix j (by omega), List.getElem?_eq_getElem hj, List.getElem?_eq_getElem hkp, hjk]
  have hjp : j < p.length := by rw [hp.length_eq]; exact hj
  have := getElem?_inj_of_nodup (hp.nodup_iff.2 hnd) hjp h1
  omega

/-- Every permutation of a duplicate-free list that agrees with it above
index `k` is the result of the loop started at `k` for some valid random
source. -/
theorem shuffleLoop_surjective {α : Type} [DecidableEq α] (k : Nat) (l p : List α)
    (hnd : l.Nodup) (hk : k ≤ l.length - 1) (hp : p.Perm l)
    (hfix : ∀ m, k < m → p[m]? = l[m]?) :
    ∃ rand, ValidRand rand ∧ shuffleLoop rand k l = p := by
  induction k generalizing l with
  | zero =>
    refine ⟨fun _ => 0, fun i => Nat.zero_le i, ?_⟩
    rw [shuffleLoop]
    refine (List.ext_getElem? fun m => ?_).symm
    by_cases hm : 0 < m
    · exact hfix m hm
    · have hm0 : m = 0 := by omega
      subst hm0
      by_cases hl : 0 < l.length
      · obtain ⟨j, hj, hjk⟩ := perm_pick hp hnd 0 hl hfix
        have hj0 : j = 0 := by omega
        rw [← hjk, hj0]
      · have hl0 : l = [] := List.length_eq_zero.1 (by omega)
        subst hl0
        rw [hp.eq_nil]
  | succ k ih =>
    have hlen : k + 1 < l.length := by omega
    obtain ⟨j, hj, hjk⟩ := perm_pick hp hnd (k + 1) hlen hfix
    have hfix' : ∀ m, k < m → p[m]? = (exchange l (k + 1) j)[m]? := by
      intro m hm
      by_cases hmk : m = k + 1
      · rw [hmk, exchange_getElem?_left l _ _ hlen (by omega), hjk]
      · rw [exchange_getElem?_of_ne l _ _ m hmk (by omega)]
        exact hfix m (by omega)
    obtain ⟨r, hr, hrp⟩ := ih (exchange l (k + 1) j)
      ((exchange_perm l _ _).nodup_iff.2 hnd) (by rw [exchange_length]; omega)
      (hp.trans (exchange_perm l _ _).symm) hfix'
    refine ⟨Function.update r (k + 1) j, ?_, ?_⟩
    · intro i
      by_cases hi : i = k + 1
      · rw [hi, Function.update_same]
        exact hj
      · rw [Function.update_noteq hi]
        exact hr i
    · rw [shuffleLoop, Function.update_same, ← hrp]
      refine shuffleLoop_congr _ _ k _ fun i _ hi2 => ?_
      rw [Function.update_noteq (by omega)]

theorem ChoiceSeq.toRand_valid {n : Nat} (c : ChoiceSeq n) : ValidRand c.toRand := by
  intro k
  unfold ChoiceSeq.toRand
  split
  · rename_i h
    have := (c ⟨k - 1, h.2⟩).isLt
    simp only at this
    omega
  · exact Nat.zero_le k

theorem ChoiceSeq.toRand_succ {n : Nat} (c : ChoiceSeq n) (i : Fin (n - 1)) :
    c.toRand (i.val + 1) = (c i).val := by
  unfold ChoiceSeq.toRand
  rw [dif_pos ⟨Nat.succ_pos _, by simp⟩]
  rfl

theorem prod_range_add_two (m : Nat) : ∏ i in Finset.range m, (i + 2) = (m + 1).factorial := by
  induction m with
  | zero => rfl
  | succ m ih =>
    rw [Finset.prod_range_succ, ih, Nat.factorial_succ (m + 1)]
    ring

theorem ChoiceSeq.card (n : Nat) : Fintype.card (ChoiceSeq n) = n.factorial := by
  have h : Fintype.card (ChoiceSeq n) = ∏ i : Fin (n - 1), (i.val + 2) := by
    unfold ChoiceSeq
    rw [Fintype.card_pi]
    simp
  rw [h, Fin.prod_univ_eq_prod_range (fun i => i + 2) (n - 1), prod_range_add_two]
  cases n with
  | zero => rfl
  | succ n => rfl

/-! ## The board state: claims C1 to C5 -/

/-- C1: for every grid size and every outcome of the random source (every
choice of an index `j ≤ i` at each loop index `i` of `shufflePieces`), after
`initializePieces` the pieces sequence has exactly `gridSize * gridSize`
entries, and every pair `(correctRow, correctCol)` with both components below
`gridSize` appears in it exactly once. -/
theorem initializePieces_complete (s : GameState) (rand : Nat → Nat)
    (_hrand : ValidRand rand) :
    (s.initializePieces rand).pieces.length = s.gridSize * s.gridSize ∧
      ∀ r c, r < s.gridSize → c < s.gridSize →
        (s.initializePieces rand).pieces.count { correctRow := r, correctCol := c } = 1 :=
  perm_canonical_count (initializePieces_perm s rand)

/-- Witness of C1: a 2 x 2 board and the random source that always draws 0. -/
theorem initializePieces_complete_witness :
    ValidRand (fun _ => 0) ∧
      (GameState.initializePieces (fun _ => 0) { gridSize := 2, pieces := [] }).pieces.length
        = 2 * 2 ∧
      (GameState.initializePieces (fun _ => 0) { gridSize := 2, pieces := [] }).pieces.count
        { correctRow := 1, correctCol := 0 } = 1 :=
  ⟨fun i => Nat.zero_le i,
    (initializePieces_complete { gridSize := 2, pieces := [] } (fun _ => 0)
      (fun i => Nat.zero_le i)).1,
    (initializePieces_complete { gridSize := 2, pieces := [] } (fun _ => 0)
      (fun i => Nat.zero_le i)).2 1 0 (by decide) (by decide)⟩

/-- C2: for a board whose pieces sequence has length `gridSize * gridSize`,
`isPuzzleSolved` returns true if and only if the pieces sequence is the
canonical row-major sequence, that is, if and only if
`pieces[i] = (floor (i / gridSize), i mod gridSize)` at every slot `i`; and it
returns false for the canonical sequence with two distinct slots exchanged. -/
theorem isPuzzleSolved_iff_identity (s : GameState)
    (hlen : s.pieces.length = s.gridSize * s.gridSize) :
    (s.isPuzzleSolved = true ↔ s.pieces = canonicalPieces s.gridSize) ∧
      (s.isPuzzleSolved = true ↔
        ∀ (i : Nat) (h : i < s.pieces.length),
          s.pieces[i].correctRow = i / s.gridSize ∧ s.pieces[i].correctCol = i % s.gridSize) ∧
      ∀ a b, a < s.gridSize * s.gridSize → b < s.gridSize * s.gridSize → a ≠ b →
        GameState.isPuzzleSolved
          { s with pieces := exchange (canonicalPieces s.gridSize) a b } = false := by
  refine ⟨isPuzzleSolved_iff_eq s hlen, ?_, fun a b ha hb hab => ?_⟩
  · rw [isPuzzleSolved_iff_getElem]
    constructor
    · intro h i hi
      rw [h i hi]
      exact ⟨rfl, rfl⟩
    · intro h i hi
      cases hp : s.pieces[i] with
      | mk r c =>
        have := h i hi
        rw [hp] at this
        simp only at this
        rw [this.1, this.2]
  · have hcl := canonicalPieces_length s.gridSize
    have hne := exchange_ne_of_nodup _ (canonicalPieces_nodup s.gridSize) a b
      (by rw [hcl]; exact ha) (by rw [hcl]; exact hb) hab
    have hiff := isPuzzleSolved_iff_eq
      { s with pieces := exchange (canonicalPieces s.gridSize) a b }
      (by simp only [exchange_length, hcl])
    cases hsol : GameState.isPuzzleSolved
        { s with pieces := exchange (canonicalPieces s.gridSize) a b } with
    | false => rfl
    | true => exact absurd (hiff.1 hsol) hne

/-- Witness of C2: the solved 2 x 2 board, and the same board with slots 0 and
3 exchanged. -/
theorem isPuzzleSolved_iff_identity_witness :
    (canonicalPieces 2).length = 2 * 2 ∧
      GameState.isPuzzleSolved { gridSize := 2, pieces := canonicalPieces 2 } = true ∧
      GameState.isPuzzleSolved
        { gridSize := 2, pieces := exchange (canonicalPieces 2) 0 3 } = false :=
  ⟨canonicalPieces_length 2,
    (isPuzzleSolved_iff_identity { gridSize := 2, pieces := canonicalPieces 2 }
      (canonicalPieces_length 2)).1.2 rfl,
    (isPuzzleSolved_iff_identity { gridSize := 2, pieces := canonicalPieces 2 }
      (canonicalPieces_length 2)).2.2 0 3 (by decide) (by decide) (by decide)⟩

/-- C3: a swap with in-range slot indices keeps the length of the pieces
sequence and keeps it a permutation of the canonical tile set; hence every
state reachable from `initializePieces` by in-range swaps has
`gridSize * gridSize` pieces and contains each in-range pair
`(correctRow, correctCol)` exactly once. -/
theorem swapPieces_preserves_permutation (s : GameState) (index1 index2 : Nat)
    (hperm : s.pieces.Perm (canonicalPieces s.gridSize))
    (_h1 : index1 < s.pieces.length) (_h2 : index2 < s.pieces.length) :
    ((s.swapPieces index1 index2).2.pieces.length = s.pieces.length ∧
      (s.swapPieces index1 index2).2.pieces.Perm
        (canonicalPieces (s.swapPieces index1 index2).2.gridSize)) ∧
      ∀ (N : Nat) (t : GameState), Reachable N t →
        t.pieces.length = N * N ∧
          ∀ r c, r < N → c < N → t.pieces.count { correctRow := r, correctCol := c } = 1 := by
  refine ⟨⟨(swapPieces_perm s index1 index2).length_eq, ?_⟩, fun N t ht => ?_⟩
  · rw [swapPieces_gridSize]
    exact (swapPieces_perm s index1 index2).trans hperm
  · exact perm_canonical_count (reachable_perm ht).2

/-- Witness of C3: the solved 2 x 2 board and the swap of slots 0 and 3. -/
theorem swapPieces_preserves_permutation_witness :
    (canonicalPieces 2).Perm (canonicalPieces 2) ∧ 0 < (canonicalPieces 2).length ∧
      3 < (canonicalPieces 2).length ∧
      (GameState.swapPieces { gridSize := 2, pieces := canonicalPieces 2 } 0 3).2.pieces.length
        = (canonicalPieces 2).length :=
  ⟨List.Perm.refl _, by decide, by decide,
    (swapPieces_preserves_permutation { gridSize := 2, pieces := canonicalPieces 2 } 0 3
      (List.Perm.refl _) (by decide) (by decide)).1.1⟩

/-- C4: swap is an involution. For in-range slot indices `a ≠ b`,
`swapPieces(a, b)` followed by `swapPieces(a, b)` returns true both times and
leaves the pieces sequence (indeed the whole state) as it was before the first
call. -/
theorem swapPieces_involution (s : GameState) (a b : Nat) (ha : a < s.pieces.length)
    (hb : b < s.pieces.length) (hab : a ≠ b) :
    (s.swapPieces a b).1 = true ∧
      ((s.swapPieces a b).2.swapPieces a b).1 = true ∧
      ((s.swapPieces a b).2.swapPieces a b).2.pieces = s.pieces ∧
      ((s.swapPieces a b).2.swapPieces a b).2 = s := by
  simp only [GameState.swapPieces, if_neg hab, exchange_exchange s.pieces a b ha hb]
  exact ⟨trivial, trivial, trivial, trivial⟩

/-- Witness of C4: slots 1 and 2 of a shuffled 2 x 2 board. -/
theorem swapPieces_involution_witness :
    1 < (exchange (canonicalPieces 2) 0 3).length ∧
      2 < (exchange (canonicalPieces 2) 0 3).length ∧ (1 : Nat) ≠ 2 ∧
      ((GameState.swapPieces { gridSize := 2, pieces := exchange (canonicalPieces 2) 0 3 }
          1 2).2.swapPieces 1 2).2.pieces = exchange (canonicalPieces 2) 0 3 :=
  ⟨by decide, by decide, by decide,
    (swapPieces_involution { gridSize := 2, pieces := exchange (canonicalPieces 2) 0 3 } 1 2
      (by decide) (by decide) (by decide)).2.2.1⟩

/-- C5: a swap request that names the same slot twice is a complete no-op.
`swapPieces(a, a)` returns false and leaves the state unchanged, and
`handlePieceSwap(a, a)` leaves the controller unchanged: its log gains no
`rebuildPuzzle`, no `isPuzzleSolved` and no scheduled win, and no timer is
added. -/
theorem swapPieces_same_slot_noop (s : GameState) (g : PuzzleGame) (a : Nat) :
    s.swapPieces a a = (false, s) ∧
      g.handlePieceSwap a a = g ∧
      (g.handlePieceSwap a a).state.pieces = g.state.pieces ∧
      (g.handlePieceSwap a a).effects = g.effects ∧
      (g.handlePieceSwap a a).pendingWins = g.pendingWins := by
  have h1 : s.swapPieces a a = (false, s) := by simp [GameState.swapPieces]
  have h2 : g.handlePieceSwap a a = g := by
    simp [PuzzleGame.handlePieceSwap, GameState.swapPieces]
  exact ⟨h1, h2, by rw [h2], by rw [h2], by rw [h2]⟩

/-! ## The shuffle: claim C6 -/

/-- C6: the shuffle is uniform. For a board of `n` distinct pieces, take as
random source a choice sequence (one index `j` with `0 ≤ j ≤ i` for each loop
index `i` from `n - 1` down to `1`). Every choice sequence makes
`shufflePieces` produce a permutation of the initial sequence; every
permutation of the initial sequence is produced by exactly one choice
sequence; and there are `n!` choice sequences. So under a uniform random
source each of the `n!` permutations has the same probability `1 / n!`. -/
theorem shufflePieces_uniform (s : GameState) (hnd : s.pieces.Nodup) :
    (∀ c : ChoiceSeq s.pieces.length, (s.shufflePieces c.toRand).pieces.Perm s.pieces) ∧
      (∀ p : List Piece, p.Perm s.pieces →
        ∃! c : ChoiceSeq s.pieces.length, (s.shufflePieces c.toRand).pieces = p) ∧
      (∀ p : List Piece, p.Perm s.pieces →
        (Finset.univ.filter fun c : ChoiceSeq s.pieces.length =>
          (s.shufflePieces c.toRand).pieces = p).card = 1) ∧
      Fintype.card (ChoiceSeq s.pieces.length) = s.pieces.length.factorial := by
  have hex : ∀ p : List Piece, p.Perm s.pieces →
      ∃! c : ChoiceSeq s.pieces.length, (s.shufflePieces c.toRand).pieces = p := by
    intro p hp
    obtain ⟨r, hr, hrp⟩ := shuffleLoop_surjective (s.pieces.length - 1) s.pieces p hnd
      (Nat.le_refl _) hp (fun m hm => by
        rw [List.getElem?_eq_none (by rw [hp.length_eq]; omega),
          List.getElem?_eq_none (by omega)])
    let c : ChoiceSeq s.pieces.length := fun i =>
      ⟨r (i.val + 1), by have := hr (i.val + 1); omega⟩
    have hc : ∀ k, 1 ≤ k → k ≤ s.pieces.length - 1 → c.toRand k = r k := by
      intro k hk1 hk2
      have := ChoiceSeq.toRand_succ c ⟨k - 1, by omega⟩
      simp only at this
      rw [Nat.sub_add_cancel hk1] at this
      rw [this]
    refine ⟨c, ?_, fun c' hc' => ?_⟩
    · show shuffleLoop c.toRand (s.pieces.length - 1) s.pieces = p
      rw [shuffleLoop_congr _ _ _ _ hc]
      exact hrp
    · have hc'' : shuffleLoop c'.toRand (s.pieces.length - 1) s.pieces = p := hc'
      have hagree := shuffleLoop_injective c'.toRand r c'.toRand_valid hr
        (s.pieces.length - 1) s.pieces hnd (Nat.le_refl _) (hc''.trans hrp.symm)
      funext i
      apply Fin.ext
      rw [← ChoiceSeq.toRand_succ c' i, hagree (i.val + 1) (by omega) (by have := i.isLt; omega)]
  refine ⟨fun c => shuffleLoop_perm _ _ _, hex, fun p hp => ?_, ChoiceSeq.card _⟩
  obtain ⟨c, hc, huniq⟩ := hex p hp
  rw [Finset.card_eq_one]
  refine ⟨c, Finset.ext fun c' => ?_⟩
  simp only [Finset.mem_filter, Finset.mem_univ, true_and, Finset.mem_singleton]
  exact ⟨fun h => huniq c' h, fun h => h ▸ hc⟩

/-- Witness of C6: the four distinct pieces of a 2 x 2 board have `4!` choice
sequences, and the initial arrangement is reached by exactly one of them. -/
theorem shufflePieces_uniform_witness :
    (canonicalPieces 2).Nodup ∧
      Fintype.card (ChoiceSeq (canonicalPieces 2).length)
        = (canonicalPieces 2).length.factorial ∧
      (Finset.univ.filter fun c : ChoiceSeq (canonicalPieces 2).length =>
        (GameState.shufflePieces c.toRand
          { gridSize := 2, pieces := canonicalPieces 2 }).pieces = canonicalPieces 2).card = 1 :=
  ⟨canonicalPieces_nodup 2,
    (shufflePieces_uniform { gridSize := 2, pieces := canonicalPieces 2 }
      (canonicalPieces_nodup 2)).2.2.2,
    (shufflePieces_uniform { gridSize := 2, pieces := canonicalPieces 2 }
      (canonicalPieces_nodup 2)).2.2.1 _ (List.Perm.refl _)⟩

/-! ## The layout: claims C7 and C8 -/

theorem fittedContent_example (innerWidth innerHeight : ℚ) :
    fittedContent { gap := 2, padding := 16, scaleFactor := 5 / 4 }
      { frameWidth := 1000, frameHeight := 800, innerWidth := innerWidth,
        innerHeight := innerHeight }
      { width := 1600, height := 1200 } = (944, 708) := by
  simp only [fittedContent, jsOr]
  norm_num

theorem availableSize_example (innerWidth innerHeight : ℚ) :
    availableSize { gap := 2, padding := 16, scaleFactor := 5 / 4 }
      { frameWidth := 1000, frameHeight := 800, innerWidth := innerWidth,
        innerHeight := innerHeight }
      { width := 1600, height := 1200 } 5 = (1172, 877) := by
  simp only [availableSize, fittedContent_example]
  norm_num

theorem availableSize_degenerate_example :
    availableSize CONFIG_grid
      { frameWidth := 0, frameHeight := 0, innerWidth := 0, innerHeight := 0 }
      { width := 1600, height := 1200 } 5 = (-78, -121 / 2) := by
  simp only [availableSize, fittedContent, jsOr, CONFIG_grid]
  norm_num

/-- For a viewport whose effective width and height are not positive, one of
the two available dimensions is negative. -/
theorem availableSize_degenerate (cfg : GridConfig) (vp : Viewport) (image : Image)
    (gridSize : Nat) (hn : 1 ≤ gridSize) (hgap : 0 ≤ cfg.gap) (hpad : 0 ≤ cfg.padding)
    (hscale : 0 < cfg.scaleFactor)
    (hw : jsOr vp.frameWidth vp.innerWidth ≤ 0) (hh : jsOr vp.frameHeight vp.innerHeight ≤ 0) :
    min (availableSize cfg vp image gridSize).1 (availableSize cfg vp image gridSize).2 < 0 := by
  have hG : 0 ≤ ((gridSize : ℚ) - 1) * cfg.gap := by
    have : (1 : ℚ) ≤ (gridSize : ℚ) := by exact_mod_cast hn
    exact mul_nonneg (by linarith) hgap
  have hmw : jsOr vp.frameWidth vp.innerWidth - 40 - cfg.padding < 0 := by linarith
  have hmh : jsOr vp.frameHeight vp.innerHeight - 40 - cfg.padding < 0 := by linarith
  simp only [availableSize, fittedContent]
  split
  · refine lt_of_le_of_lt (min_le_left _ _) ?_
    have := mul_neg_of_neg_of_pos hmw hscale
    simp only
    linarith
  · refine lt_of_le_of_lt (min_le_right _ _) ?_
    have := mul_neg_of_neg_of_pos hmh hscale
    simp only
    linarith

/-- C7: `calculateLayout` returns `puzzleWidth` and `puzzleHeight` both equal
to `pieceSize * gridSize + gap * (gridSize - 1) + padding`, computed from the
integer `pieceSize`; and for image 1600 x 1200, frame 1000 x 800 (whatever the
window size), gridSize 5, gap 2, padding 16, scaleFactor 1.25 it returns
`pieceSize = 175` and `puzzleWidth = puzzleHeight = 899`. -/
theorem calculateLayout_board_size (cfg : GridConfig) (vp : Viewport) (image : Image)
    (gridSize : Nat) (innerWidth innerHeight : ℚ) :
    (PuzzleRenderer.calculateLayout cfg vp image gridSize).puzzleWidth
        = ((PuzzleRenderer.calculateLayout cfg vp image gridSize).pieceSize : ℚ) * (gridSize : ℚ)
          + cfg.gap * ((gridSize : ℚ) - 1) + cfg.padding ∧
      (PuzzleRenderer.calculateLayout cfg vp image gridSize).puzzleHeight
        = ((PuzzleRenderer.calculateLayout cfg vp image gridSize).pieceSize : ℚ) * (gridSize : ℚ)
          + cfg.gap * ((gridSize : ℚ) - 1) + cfg.padding ∧
      PuzzleRenderer.calculateLayout { gap := 2, padding := 16, scaleFactor := 5 / 4 }
        { frameWidth := 1000, frameHeight := 800, innerWidth := innerWidth,
          innerHeight := innerHeight }
        { width := 1600, height := 1200 } 5
        = { pieceSize := 175, puzzleWidth := 899, puzzleHeight := 899 } ∧
      (899 : ℚ) = 175 * 5 + 2 * 4 + 16 := by
  refine ⟨?_, ?_, ?_, by norm_num⟩
  · simp only [PuzzleRenderer.calculateLayout]
    ring
  · simp only [PuzzleRenderer.calculateLayout]
    ring
  · have hfloor : ⌊min (1172 : ℚ) 877 / ((5 : ℕ) : ℚ)⌋ = 175 := by
      rw [Int.floor_eq_iff]
      norm_num
    simp only [PuzzleRenderer.calculateLayout, availableSize_example, hfloor]
    norm_num

/-- Counterexample to C8: with the frame rectangle and the window both 0 x 0,
image 1600 x 1200, gridSize 5 and the values of `CONFIG.grid`,
`calculateLayout` returns `pieceSize = -16`, which is neither 0 nor `≥ 0`. -/
theorem calculateLayout_degenerate_negative :
    (PuzzleRenderer.calculateLayout CONFIG_grid
      { frameWidth := 0, frameHeight := 0, innerWidth := 0, innerHeight := 0 }
      { width := 1600, height := 1200 } 5).pieceSize = -16 := by
  have hfloor : ⌊min (-78 : ℚ) (-121 / 2) / ((5 : ℕ) : ℚ)⌋ = -16 := by
    rw [Int.floor_eq_iff]
    norm_num
  simp only [PuzzleRenderer.calculateLayout, availableSize_degenerate_example, hfloor]

/-- C8, amended: `calculateLayout` applies no clamp to the tile size. For
`gridSize ≥ 1`, `pieceSize ≥ 0` holds exactly when both `availableWidth` and
`availableHeight` are `≥ 0`; and for a degenerate viewport (effective width
and height zero or negative, such as 0 x 0 for both the frame rectangle and
the window) the returned `pieceSize` is negative, for every image with
positive dimensions and every `gridSize ≥ 1`, given `gap ≥ 0`, `padding ≥ 0`
and `scaleFactor > 0`. -/
theorem calculateLayout_pieceSize_sign (cfg : GridConfig) (vp : Viewport) (image : Image)
    (gridSize : Nat) (hn : 1 ≤ gridSize) (_hw : 0 < image.width) (_hh : 0 < image.height) :
    (0 ≤ (PuzzleRenderer.calculateLayout cfg vp image gridSize).pieceSize ↔
        0 ≤ (availableSize cfg vp image gridSize).1 ∧
          0 ≤ (availableSize cfg vp image gridSize).2) ∧
      (0 ≤ cfg.gap → 0 ≤ cfg.padding → 0 < cfg.scaleFactor →
        jsOr vp.frameWidth vp.innerWidth ≤ 0 → jsOr vp.frameHeight vp.innerHeight ≤ 0 →
        (PuzzleRenderer.calculateLayout cfg vp image gridSize).pieceSize < 0) := by
  have hpos : (0 : ℚ) < (gridSize : ℚ) := by exact_mod_cast hn
  have hsign : 0 ≤ (PuzzleRenderer.calculateLayout cfg vp image gridSize).pieceSize ↔
      0 ≤ min (availableSize cfg vp image gridSize).1 (availableSize cfg vp image gridSize).2 := by
    simp only [PuzzleRenderer.calculateLayout]
    rw [Int.floor_nonneg]
    constructor
    · intro h
      by_contra hneg
      exact absurd h (not_le.2 (div_neg_of_neg_of_pos (not_le.1 hneg) hpos))
    · intro h
      exact div_nonneg h hpos.le
  refine ⟨hsign.trans le_min_iff, fun hgap hpad hscale hw hh => ?_⟩
  have hmin := availableSize_degenerate cfg vp image gridSize hn hgap hpad hscale hw hh
  by_contra hge
  exact absurd (hsign.1 (not_lt.1 hge)) (not_le.2 hmin)

/-- Witness of the amended C8: the values of `CONFIG.grid`, a 0 x 0 frame and
window, image 1600 x 1200 and gridSize 5. -/
theorem calculateLayout_pieceSize_sign_witness :
    1 ≤ 5 ∧ (0 : ℚ) < 1600 ∧ (0 : ℚ) < 1200 ∧
      (PuzzleRenderer.calculateLayout CONFIG_grid
        { frameWidth := 0, frameHeight := 0, innerWidth := 0, innerHeight := 0 }
        { width := 1600, height := 1200 } 5).pieceSize < 0 :=
  ⟨by decide, by norm_num, by norm_num,
    (calculateLayout_pieceSize_sign CONFIG_grid
      { frameWidth := 0, frameHeight := 0, innerWidth := 0, innerHeight := 0 }
      { width := 1600, height := 1200 } 5 (by decide) (by norm_num) (by norm_num)).2
      (by norm_num [CONFIG_grid]) (by norm_num [CONFIG_grid]) (by norm_num [CONFIG_grid])
      (by norm_num [jsOr]) (by norm_num [jsOr])⟩

/-! ## The gesture handlers: claim C9 -/

theorem DragDropHandler.step_frame (h : DragDropHandler) (e : DragStep) :
    (h.step e).draggedElement = h.draggedElement ∧ (h.step e).onSwapCalls = h.onSwapCalls := by
  cases e with
  | dragover t =>
    simp only [DragDropHandler.step, DragDropHandler.handleDragOver]
    split <;> exact ⟨rfl, rfl⟩
  | dragenter t =>
    simp only [DragDropHandler.step, DragDropHandler.handleDragEnter]
    split <;> exact ⟨rfl, rfl⟩
  | dragleave t =>
    simp only [DragDropHandler.step, DragDropHandler.handleDragLeave]
    split <;> exact ⟨rfl, rfl⟩
  | timeout =>
    simp only [DragDropHandler.step, DragDropHandler.runTimeout]
    split
    · exact ⟨rfl, rfl⟩
    · split <;> exact ⟨rfl, rfl⟩

theorem DragDropHandler.steps_frame (between : List DragStep) (h : DragDropHandler) :
    (between.foldl DragDropHandler.step h).draggedElement = h.draggedElement ∧
      (between.foldl DragDropHandler.step h).onSwapCalls = h.onSwapCalls := by
  induction between generalizing h with
  | nil => exact ⟨rfl, rfl⟩
  | cons e rest ih =>
    rw [List.foldl_cons]
    exact ⟨(ih _).1.trans (h.step_frame e).1, (ih _).2.trans (h.step_frame e).2⟩

theorem TouchHandler.handleTouchMove_frame (h : TouchHandler) (touch : Touch)
    (under : Option Elem) :
    (h.handleTouchMove touch under).touchPiece = h.touchPiece ∧
      (h.handleTouchMove touch under).onSwapCalls = h.onSwapCalls := by
  unfold TouchHandler.handleTouchMove
  split
  · exact ⟨rfl, rfl⟩
  · simp only
    split
    · exact ⟨rfl, rfl⟩
    · split
      · split <;> exact ⟨rfl, rfl⟩
      · exact ⟨rfl, rfl⟩

theorem TouchHandler.moves_frame (moves : List TouchMove) (h : TouchHandler) :
    (moves.foldl (fun acc m => acc.handleTouchMove m.touch m.elementFromPoint) h).touchPiece
        = h.touchPiece ∧
      (moves.foldl (fun acc m => acc.handleTouchMove m.touch m.elementFromPoint) h).onSwapCalls
        = h.onSwapCalls := by
  induction moves generalizing h with
  | nil => exact ⟨rfl, rfl⟩
  | cons m rest ih =>
    rw [List.foldl_cons]
    exact ⟨(ih _).1.trans (h.handleTouchMove_frame _ _).1,
      (ih _).2.trans (h.handleTouchMove_frame _ _).2⟩

theorem DragDropHandler.handleDrop_same (h : DragDropHandler) (tile : Elem)
    (hd : h.draggedElement = some tile) :
    (h.handleDrop tile).onSwapCalls = h.onSwapCalls ∧
      (h.handleDrop tile).dom.highlight = [] := by
  refine ⟨?_, rfl⟩
  unfold DragDropHandler.handleDrop Elem.closestPiece
  split
  · rename_i target htarget
    split at htarget
    · have ht : tile = target := Option.some.inj htarget
      subst ht
      simp [hd]
    · exact Option.noConfusion htarget
  · rfl

theorem TouchHandler.handleTouchStart_piece (h : TouchHandler) (tile : Elem) (touch : Touch)
    (hpiece : tile.isPiece = true) :
    (h.handleTouchStart tile touch).touchPiece = some tile ∧
      (h.handleTouchStart tile touch).onSwapCalls = h.onSwapCalls := by
  simp [TouchHandler.handleTouchStart, Elem.closestPiece, hpiece]

theorem TouchHandler.handleTouchEnd_same (h : TouchHandler) (tile : Elem) (touch : Touch)
    (hpiece : tile.isPiece = true) (ht : h.touchPiece = some tile) :
    (h.handleTouchEnd touch (some tile)).onSwapCalls = h.onSwapCalls ∧
      (h.handleTouchEnd touch (some tile)).dom.highlight = [] ∧
      (h.handleTouchEnd touch (some tile)).touchPiece = none := by
  unfold TouchHandler.handleTouchEnd
  rw [ht]
  simp [Option.bind, Elem.closestPiece, hpiece, Dom.clearHighlights]

theorem TouchHandler.touch_finish_same (h0 : TouchHandler) (tile : Elem) (hpiece : tile.isPiece = true)
    (h0p : h0.touchPiece = some tile) (moves : List TouchMove) (endTouch : Touch) :
    ((moves.foldl (fun acc m => acc.handleTouchMove m.touch m.elementFromPoint)
        h0).handleTouchEnd endTouch (some tile)).onSwapCalls = h0.onSwapCalls ∧
      ((moves.foldl (fun acc m => acc.handleTouchMove m.touch m.elementFromPoint)
        h0).handleTouchEnd endTouch (some tile)).dom.highlight = [] ∧
      ((moves.foldl (fun acc m => acc.handleTouchMove m.touch m.elementFromPoint)
        h0).handleTouchEnd endTouch (some tile)).touchPiece = none := by
  have hframe := TouchHandler.moves_frame moves h0
  have hend := TouchHandler.handleTouchEnd_same _ tile endTouch hpiece (hframe.1.trans h0p)
  exact ⟨hend.1.trans hframe.2, hend.2.1, hend.2.2⟩

theorem DragDropHandler.drag_finish_same (h0 : DragDropHandler) (tile : Elem)
    (h0d : h0.draggedElement = some tile) (between : List DragStep) :
    (((between.foldl DragDropHandler.step h0).handleDrop tile).handleDragEnd
        tile).onSwapCalls = h0.onSwapCalls := by
  have hframe := DragDropHandler.steps_frame between h0
  have hdrop := DragDropHandler.handleDrop_same _ tile (hframe.1.trans h0d)
  exact hdrop.1.trans hframe.2

/-- C9: a gesture that starts and ends on the same tile emits no swap request
and leaves no highlight. For `DragDropHandler` (`dragstart` on a tile, any
`dragover`, `dragenter`, `dragleave` and timer steps, then `drop` and `dragend`
on that tile) and for `TouchHandler` (`touchstart` on a tile, any `touchmove`s,
then `touchend` over that tile), `onSwap` is not called, no piece carries
`highlight` afterwards, and `draggedElement`, `draggedIndex` and `touchPiece`
are reset to `null`. -/
theorem same_tile_gesture_no_swap (tile : Elem) (hpiece : tile.isPiece = true)
    (hd : DragDropHandler) (between : List DragStep)
    (ht : TouchHandler) (start endTouch : Touch) (moves : List TouchMove) :
    ((hd.gesture tile between tile).onSwapCalls = hd.onSwapCalls ∧
      (hd.gesture tile between tile).dom.highlight = [] ∧
      (hd.gesture tile between tile).draggedElement = none ∧
      (hd.gesture tile between tile).draggedIndex = IndexVal.null) ∧
    ((ht.gesture tile start moves endTouch (some tile)).onSwapCalls = ht.onSwapCalls ∧
      (ht.gesture tile start moves endTouch (some tile)).dom.highlight = [] ∧
      (ht.gesture tile start moves endTouch (some tile)).touchPiece = none) := by
  constructor
  · exact ⟨DragDropHandler.drag_finish_same (hd.handleDragStart tile) tile rfl between,
      rfl, rfl, rfl⟩
  · have hstart := TouchHandler.handleTouchStart_piece ht tile start hpiece
    have hfin := TouchHandler.touch_finish_same (ht.handleTouchStart tile start) tile hpiece
      hstart.1 moves endTouch
    exact ⟨hfin.1.trans hstart.2, hfin.2.1, hfin.2.2⟩

/-- Witness of C9: tile 0 is dragged over tile 1 and back and dropped on
itself; tile 0 is touched, the finger moves over tile 1 and is lifted over
tile 0. -/
theorem same_tile_gesture_no_swap_witness :
    Elem.isPiece { id := 0, index := some 0 } = true ∧
      (DragDropHandler.gesture
        { dom := { highlight := [], dragging := [] }, draggedElement := none,
          draggedIndex := IndexVal.null, onSwapCalls := [], pendingTimeouts := [] }
        { id := 0, index := some 0 }
        [DragStep.timeout, DragStep.dragover { id := 1, index := some 1 },
          DragStep.dragover { id := 0, index := some 0 }]
        { id := 0, index := some 0 }).onSwapCalls = [] ∧
      (TouchHandler.gesture
        { dom := { highlight := [], dragging := [] }, touchPiece := none, touchStartX := 0,
          touchStartY := 0, onSwapCalls := [] }
        { id := 0, index := some 0 } { clientX := 5, clientY := 5 }
        [{ touch := { clientX := 60, clientY := 5 },
           elementFromPoint := some { id := 1, index := some 1 } }]
        { clientX := 6, clientY := 6 } (some { id := 0, index := some 0 })).dom.highlight = [] :=
  ⟨rfl,
    (same_tile_gesture_no_swap { id := 0, index := some 0 } rfl
      { dom := { highlight := [], dragging := [] }, draggedElement := none,
        draggedIndex := IndexVal.null, onSwapCalls := [], pendingTimeouts := [] }
      [DragStep.timeout, DragStep.dragover { id := 1, index := some 1 },
        DragStep.dragover { id := 0, index := some 0 }]
      { dom := { highlight := [], dragging := [] }, touchPiece := none, touchStartX := 0,
        touchStartY := 0, onSwapCalls := [] }
      { clientX := 5, clientY := 5 } { clientX := 6, clientY := 6 }
      [{ touch := { clientX := 60, clientY := 5 },
         elementFromPoint := some { id := 1, index := some 1 } }]).1.1,
    (same_tile_gesture_no_swap { id := 0, index := some 0 } rfl
      { dom := { highlight := [], dragging := [] }, draggedElement := none,
        draggedIndex := IndexVal.null, onSwapCalls := [], pendingTimeouts := [] }
      [DragStep.timeout, DragStep.dragover { id := 1, index := some 1 },
        DragStep.dragover { id := 0, index := some 0 }]
      { dom := { highlight := [], dragging := [] }, touchPiece := none, touchStartX := 0,
        touchStartY := 0, onSwapCalls := [] }
      { clientX := 5, clientY := 5 } { clientX := 6, clientY := 6 }
      [{ touch := { clientX := 60, clientY := 5 },
         elementFromPoint := some { id := 1, index := some 1 } }]).2.2.1⟩

/-! ## The controller: claim C10 -/

/-- Counterexample to C10: on a 2 x 2 board one exchange away from solved,
`handlePieceSwap(0, 1)` solves the board and schedules the win. A further
`handlePieceSwap(0, 1)`, before or after the win timer fires, exchanges the
pieces again, re-renders and runs the win check; one more schedules a second
win. -/
theorem handlePieceSwap_after_win_not_ignored :
    (PuzzleGame.handlePieceSwap 
        { state := { gridSize := 2, pieces := exchange (canonicalPieces 2) 0 1 }, effects := [],
          pendingWins := 0 } 0 1).state.pieces
        = [⟨0, 0⟩, ⟨0, 1⟩, ⟨1, 0⟩, ⟨1, 1⟩] ∧
      (PuzzleGame.handlePieceSwap 
        { state := { gridSize := 2, pieces := exchange (canonicalPieces 2) 0 1 }, effects := [],
          pendingWins := 0 } 0 1).effects
        = [Effect.rebuildPuzzle [⟨0, 0⟩, ⟨0, 1⟩, ⟨1, 0⟩, ⟨1, 1⟩], Effect.isPuzzleSolved true,
            Effect.scheduleWin] ∧
      (PuzzleGame.handlePieceSwap 
        { state := { gridSize := 2, pieces := exchange (canonicalPieces 2) 0 1 }, effects := [],
          pendingWins := 0 } 0 1).winScheduledOrTaken = true ∧
      ((PuzzleGame.handlePieceSwap 
        { state := { gridSize := 2, pieces := exchange (canonicalPieces 2) 0 1 }, effects := [],
          pendingWins := 0 } 0 1).handlePieceSwap 0 1).state.pieces
        = [⟨0, 1⟩, ⟨0, 0⟩, ⟨1, 0⟩, ⟨1, 1⟩] ∧
      ((PuzzleGame.handlePieceSwap 
        { state := { gridSize := 2, pieces := exchange (canonicalPieces 2) 0 1 }, effects := [],
          pendingWins := 0 } 0 1).handlePieceSwap 0 1).effects
        = [Effect.rebuildPuzzle [⟨0, 0⟩, ⟨0, 1⟩, ⟨1, 0⟩, ⟨1, 1⟩], Effect.isPuzzleSolved true,
            Effect.scheduleWin,
            Effect.rebuildPuzzle [⟨0, 1⟩, ⟨0, 0⟩, ⟨1, 0⟩, ⟨1, 1⟩], Effect.isPuzzleSolved false] ∧
      (((PuzzleGame.handlePieceSwap 
        { state := { gridSize := 2, pieces := exchange (canonicalPieces 2) 0 1 }, effects := [],
          pendingWins := 0 } 0 1).handlePieceSwap 0 1).handlePieceSwap
        0 1).pendingWins = 2 ∧
      (PuzzleGame.handlePieceSwap 
        { state := { gridSize := 2, pieces := exchange (canonicalPieces 2) 0 1 }, effects := [],
          pendingWins := 0 } 0 1).fireWinTimer.winScheduledOrTaken = true ∧
      ((PuzzleGame.handlePieceSwap 
        { state := { gridSize := 2, pieces := exchange (canonicalPieces 2) 0 1 }, effects := [],
          pendingWins := 0 } 0 1).fireWinTimer.handlePieceSwap 0 1).state.pieces
        = [⟨0, 1⟩, ⟨0, 0⟩, ⟨1, 0⟩, ⟨1, 1⟩] := by
  decide

/-- C10, amended: `handlePieceSwap` consults no game phase. In every state of
the controller, also once a win has been scheduled or taken, a request with
in-range `index1 ≠ index2` exchanges the two pieces, re-renders once, runs the
win check, and schedules a further win exactly when the board is solved after
the exchange. -/
theorem handlePieceSwap_every_phase (g : PuzzleGame) (index1 index2 : Nat)
    (_h1 : index1 < g.state.pieces.length) (_h2 : index2 < g.state.pieces.length)
    (hne : index1 ≠ index2) :
    (g.handlePieceSwap index1 index2).state.pieces = exchange g.state.pieces index1 index2 ∧
      (g.handlePieceSwap index1 index2).effects
        = g.effects ++
          [Effect.rebuildPuzzle (exchange g.state.pieces index1 index2),
            Effect.isPuzzleSolved (g.handlePieceSwap index1 index2).state.isPuzzleSolved] ++
          (if (g.handlePieceSwap index1 index2).state.isPuzzleSolved = true
            then [Effect.scheduleWin] else []) ∧
      (g.handlePieceSwap index1 index2).pendingWins
        = g.pendingWins +
          (if (g.handlePieceSwap index1 index2).state.isPuzzleSolved = true then 1 else 0) := by
  cases hs : GameState.isPuzzleSolved
      { gridSize := g.state.gridSize, pieces := exchange g.state.pieces index1 index2 } <;>
    simp [PuzzleGame.handlePieceSwap, GameState.swapPieces, hne, PuzzleGame.rebuildPuzzle, hs]

/-- Witness of the amended C10: the controller of a 2 x 2 board whose win is
already scheduled receives `handlePieceSwap(0, 1)`. -/
theorem handlePieceSwap_every_phase_witness :
    0 < (PuzzleGame.handlePieceSwap 
        { state := { gridSize := 2, pieces := exchange (canonicalPieces 2) 0 1 }, effects := [],
          pendingWins := 0 } 0 1).state.pieces.length ∧
      1 < (PuzzleGame.handlePieceSwap 
        { state := { gridSize := 2, pieces := exchange (canonicalPieces 2) 0 1 }, effects := [],
          pendingWins := 0 } 0 1).state.pieces.length ∧ (0 : Nat) ≠ 1 ∧
      (PuzzleGame.handlePieceSwap 
        { state := { gridSize := 2, pieces := exchange (canonicalPieces 2) 0 1 }, effects := [],
          pendingWins := 0 } 0 1).winScheduledOrTaken = true ∧
      ((PuzzleGame.handlePieceSwap 
        { state := { gridSize := 2, pieces := exchange (canonicalPieces 2) 0 1 }, effects := [],
          pendingWins := 0 } 0 1).handlePieceSwap 0 1).state.pieces
        = exchange (PuzzleGame.handlePieceSwap 
        { state := { gridSize := 2, pieces := exchange (canonicalPieces 2) 0 1 }, effects := [],
          pendingWins := 0 } 0 1).state.pieces 0 1 :=
  ⟨by decide, by decide, by decide, by decide,
    (handlePieceSwap_every_phase (PuzzleGame.handlePieceSwap 
        { state := { gridSize := 2, pieces := exchange (canonicalPieces 2) 0 1 }, effects := [],
          pendingWins := 0 } 0 1) 0 1
      (by decide) (by decide) (by decide)).1⟩

/-! ## The tile size in exact arithmetic -/

theorem fittedContent_eq_box (cfg : GridConfig) (vp : Viewport) (image : Image) :
    fittedContent cfg vp image
      = if image.width / image.height > (contentBox cfg vp).1 / (contentBox cfg vp).2 then
          ((contentBox cfg vp).1, (contentBox cfg vp).1 / (image.width / image.height))
        else
          ((contentBox cfg vp).2 * (image.width / image.height), (contentBox cfg vp).2) := rfl

/-- The fit computed by the code is an aspect-ratio-preserving fit. -/
theorem codeFit_isFit (W H r : ℚ) (hW : 0 < W) (hH : 0 < H) (hr : 0 < r) :
    (if r > W / H then (W, W / r) else (H * r, H)).1 ≤ W ∧
      (if r > W / H then (W, W / r) else (H * r, H)).2 ≤ H ∧
      (if r > W / H then (W, W / r) else (H * r, H)).1
          / (if r > W / H then (W, W / r) else (H * r, H)).2 = r ∧
      ((if r > W / H then (W, W / r) else (H * r, H)).1 = W ∨
        (if r > W / H then (W, W / r) else (H * r, H)).2 = H) := by
  by_cases h : r > W / H
  · simp only [if_pos h]
    have h1 : W < r * H := (div_lt_iff₀ hH).1 h
    refine ⟨le_refl _, ?_, ?_, Or.inl trivial⟩
    · rw [div_le_iff₀ hr]
      linarith
    · field_simp
  · simp only [if_neg h]
    have h1 : r * H ≤ W := (le_div_iff₀ hH).1 (not_lt.1 h)
    refine ⟨by linarith, le_refl _, ?_, Or.inr trivial⟩
    field_simp

/-- An aspect-ratio-preserving fit is the one computed by the code. -/
theorem isFit_eq_codeFit (W H r cw ch : ℚ) (hH : 0 < H) (hr : 0 < r)
    (h1 : cw ≤ W) (h2 : ch ≤ H) (h3 : cw / ch = r) (h4 : cw = W ∨ ch = H) :
    (cw, ch) = if r > W / H then (W, W / r) else (H * r, H) := by
  have hch : ch ≠ 0 := by
    intro h0
    rw [h0, div_zero] at h3
    linarith
  have hcw : cw = r * ch := by
    rw [← h3]
    field_simp
  by_cases h : r > W / H
  · rw [if_pos h]
    have hlt : W < r * H := (div_lt_iff₀ hH).1 h
    rcases h4 with h4 | h4
    · have : ch = W / r := by
        rw [eq_div_iff hr.ne']
        linarith
      rw [h4, this]
    · rw [h4] at hcw
      linarith
  · rw [if_neg h]
    have hle : r * H ≤ W := (le_div_iff₀ hH).1 (not_lt.1 h)
    rcases h4 with h4 | h4
    · have hmul : r * ch ≤ r * H := mul_le_mul_of_nonneg_left h2 hr.le
      have hrr : r * ch = r * H := by linarith
      have hchH : ch = H := mul_left_cancel₀ hr.ne' hrr
      rw [hcw, hchH, mul_comm]
    · rw [hcw, h4, mul_comm]

theorem floor_min_div (a b : ℚ) (n : Nat) :
    ⌊min a b / (n : ℚ)⌋ = min ⌊a / (n : ℚ)⌋ ⌊b / (n : ℚ)⌋ := by
  have hpos : (0 : ℚ) ≤ (n : ℚ) := Nat.cast_nonneg n
  rw [← min_div_div_right hpos]
  exact Int.floor_mono.map_min

theorem pieceSize_eq_specTileSize (cfg : GridConfig) (vp : Viewport) (image : Image)
    (gridSize : Nat) :
    (PuzzleRenderer.calculateLayout cfg vp image gridSize).pieceSize
      = specTileSize cfg gridSize (fittedContent cfg vp image).1
          (fittedContent cfg vp image).2 := by
  simp only [PuzzleRenderer.calculateLayout, availableSize, specTileSize]
  rw [floor_min_div _ _ gridSize]
  congr 3 <;> ring

/-- In exact rational arithmetic the tile size is the one the specification
defines. For an image with positive width and height and a positive content
box, the pair computed by `fittedContent` is the unique aspect-ratio-preserving
fit of the image inside the content box, and for that fit `(cw, ch)` the
`pieceSize` of the exact-arithmetic layout equals
`min (floor ((s * cw - G) / n)) (floor ((s * ch - G) / n))`. The code computes
in doubles, where this can fail; see `calculateLayoutF64`. -/
theorem calculateLayout_pieceSize_exact (cfg : GridConfig) (vp : Viewport) (image : Image)
    (gridSize : Nat) (_hn : 1 ≤ gridSize) (hw : 0 < image.width) (hh : 0 < image.height)
    (hbw : 0 < (contentBox cfg vp).1) (hbh : 0 < (contentBox cfg vp).2) :
    SpecAspectFit (contentBox cfg vp) image (fittedContent cfg vp image).1
        (fittedContent cfg vp image).2 ∧
      (∀ cw ch : ℚ, SpecAspectFit (contentBox cfg vp) image cw ch →
        (PuzzleRenderer.calculateLayout cfg vp image gridSize).pieceSize
          = specTileSize cfg gridSize cw ch) ∧
      (∀ cw ch : ℚ, SpecAspectFit (contentBox cfg vp) image cw ch →
        (cw, ch) = fittedContent cfg vp image) ∧
      (PuzzleRenderer.calculateLayout cfg vp image gridSize).pieceSize
        = ⌊min (availableSize cfg vp image gridSize).1 (availableSize cfg vp image gridSize).2
            / (gridSize : ℚ)⌋ := by
  have hr : 0 < image.width / image.height := div_pos hw hh
  have huniq : ∀ cw ch : ℚ, SpecAspectFit (contentBox cfg vp) image cw ch →
      (cw, ch) = fittedContent cfg vp image := by
    intro cw ch hfit
    rw [fittedContent_eq_box]
    exact isFit_eq_codeFit _ _ _ cw ch hbh hr hfit.1 hfit.2.1 hfit.2.2.1 hfit.2.2.2
  refine ⟨?_, fun cw ch hfit => ?_, huniq, rfl⟩
  · rw [fittedContent_eq_box]
    exact codeFit_isFit _ _ _ hbw hbh hr
  · have h := huniq cw ch hfit
    rw [pieceSize_eq_specTileSize, ← h]

/-! ## Lemmas on rounding to a double -/

theorem roundHalfEven_intCast (z : ℤ) : roundHalfEven (z : ℚ) = z := by
  unfold roundHalfEven
  rw [Int.floor_intCast, sub_self, if_pos (by norm_num)]

theorem roundHalfEven_eq_of_near (q : ℚ) (m : ℤ) (h1 : (m : ℚ) - 1 / 2 < q)
    (h2 : q < (m : ℚ) + 1 / 2) : roundHalfEven q = m := by
  unfold roundHalfEven
  by_cases hq : (m : ℚ) ≤ q
  · have hfl : ⌊q⌋ = m := Int.floor_eq_iff.2 ⟨hq, by linarith⟩
    rw [hfl, if_pos (by linarith)]
  · have hfl : ⌊q⌋ = m - 1 := by
      rw [Int.floor_eq_iff]
      push_cast
      constructor <;> linarith
    rw [hfl]
    push_cast
    rw [if_neg (by linarith), if_pos (by linarith)]
    ring

theorem roundHalfEven_mono {a b : ℚ} (h : a ≤ b) : roundHalfEven a ≤ roundHalfEven b := by
  have hfl : ⌊a⌋ ≤ ⌊b⌋ := Int.floor_mono h
  have ha1 : roundHalfEven a ≤ ⌊a⌋ + 1 := by
    unfold roundHalfEven
    split_ifs <;> omega
  have hb0 : ⌊b⌋ ≤ roundHalfEven b := by
    unfold roundHalfEven
    split_ifs <;> omega
  by_cases hlt : ⌊a⌋ < ⌊b⌋
  · omega
  · have heq : ⌊a⌋ = ⌊b⌋ := by omega
    have hfrac : a - ⌊a⌋ ≤ b - ⌊b⌋ := by
      rw [heq]
      linarith
    unfold roundHalfEven
    rw [heq] at hfrac ⊢
    split_ifs <;> first | omega | (exfalso; linarith)

theorem ulp_pos (e : ℤ) : (0 : ℚ) < 2 ^ (e - 52) := zpow_pos (by norm_num) _

theorem zpow_eq_mul_ulp (e : ℤ) : (2 : ℚ) ^ e = ((2 ^ 52 : ℤ) : ℚ) * 2 ^ (e - 52) := by
  have h : ((2 ^ 52 : ℤ) : ℚ) = (2 : ℚ) ^ (52 : ℤ) := by norm_num
  rw [h, ← zpow_add₀ (by norm_num : (2 : ℚ) ≠ 0)]
  congr 1
  ring

theorem zpow_succ_eq_mul_ulp (e : ℤ) :
    (2 : ℚ) ^ (e + 1) = ((2 ^ 53 : ℤ) : ℚ) * 2 ^ (e - 52) := by
  have h : ((2 ^ 53 : ℤ) : ℚ) = (2 : ℚ) ^ (53 : ℤ) := by norm_num
  rw [h, ← zpow_add₀ (by norm_num : (2 : ℚ) ≠ 0)]
  congr 1
  ring

theorem f64Exponent_ge (q : ℚ) : -1022 ≤ f64Exponent q := le_max_right _ _

theorem abs_lt_zpow_f64Exponent (q : ℚ) : |q| < 2 ^ (f64Exponent q + 1) := by
  have h1 : |q| < ((2 : ℕ) : ℚ) ^ (Int.log 2 |q| + 1) :=
    Int.lt_zpow_succ_log_self (by norm_num) _
  rw [Nat.cast_ofNat] at h1
  refine lt_of_lt_of_le h1 (zpow_le_zpow_right₀ (by norm_num) ?_)
  have : Int.log 2 |q| ≤ f64Exponent q := le_max_left _ _
  omega

theorem zpow_f64Exponent_le (q : ℚ) (hq : q ≠ 0) (he : -1022 < f64Exponent q) :
    (2 : ℚ) ^ f64Exponent q ≤ |q| := by
  have hlog : f64Exponent q = Int.log 2 |q| := by
    unfold f64Exponent at he ⊢
    rcases max_cases (Int.log 2 |q|) (-1022) with h | h
    · exact h.1
    · rw [h.1] at he
      omega
  rw [hlog]
  have h1 : ((2 : ℕ) : ℚ) ^ Int.log 2 |q| ≤ |q| :=
    Int.zpow_log_le_self (by norm_num) (abs_pos.2 hq)
  rwa [Nat.cast_ofNat] at h1

theorem f64Exponent_mono {a b : ℚ} (ha : a ≠ 0) (h : |a| ≤ |b|) :
    f64Exponent a ≤ f64Exponent b :=
  max_le_max (Int.log_mono_right (abs_pos.2 ha) h) (le_refl _)

theorem roundF64_zero : roundF64 0 = 0 := by
  unfold roundF64
  rw [zero_div]
  have : roundHalfEven 0 = 0 := by simpa using roundHalfEven_intCast 0
  rw [this]
  simp

theorem roundF64_nonneg {q : ℚ} (hq : 0 ≤ q) : 0 ≤ roundF64 q := by
  unfold roundF64
  have h0 : roundHalfEven ((0 : ℤ) : ℚ) ≤ roundHalfEven (q / 2 ^ (f64Exponent q - 52)) :=
    roundHalfEven_mono (by
      rw [Int.cast_zero]
      exact div_nonneg hq (ulp_pos _).le)
  rw [roundHalfEven_intCast] at h0
  exact mul_nonneg (by exact_mod_cast h0) (ulp_pos _).le

theorem roundF64_nonpos {q : ℚ} (hq : q ≤ 0) : roundF64 q ≤ 0 := by
  unfold roundF64
  have h0 : roundHalfEven (q / 2 ^ (f64Exponent q - 52)) ≤ roundHalfEven ((0 : ℤ) : ℚ) :=
    roundHalfEven_mono (by
      rw [Int.cast_zero]
      exact div_nonpos_of_nonpos_of_nonneg hq (ulp_pos _).le)
  rw [roundHalfEven_intCast] at h0
  exact mul_nonpos_of_nonpos_of_nonneg (by exact_mod_cast h0) (ulp_pos _).le

/-- A positive number is rounded to at most the upper end of its binade. -/
theorem roundF64_le_zpow {q : ℚ} (hq : 0 < q) : roundF64 q ≤ 2 ^ (f64Exponent q + 1) := by
  have hlt := abs_lt_zpow_f64Exponent q
  rw [abs_of_pos hq, zpow_succ_eq_mul_ulp] at hlt
  have hdiv : q / 2 ^ (f64Exponent q - 52) ≤ ((2 ^ 53 : ℤ) : ℚ) := by
    rw [div_le_iff₀ (ulp_pos _)]
    exact hlt.le
  have hr := roundHalfEven_mono hdiv
  rw [roundHalfEven_intCast] at hr
  rw [zpow_succ_eq_mul_ulp]
  unfold roundF64
  exact mul_le_mul_of_nonneg_right (by exact_mod_cast hr) (ulp_pos _).le

/-- A positive number above the subnormal range is rounded to at least the
lower end of its binade. -/
theorem zpow_le_roundF64 {q : ℚ} (hq : 0 < q) (he : -1022 < f64Exponent q) :
    (2 : ℚ) ^ f64Exponent q ≤ roundF64 q := by
  have hle := zpow_f64Exponent_le q hq.ne' he
  rw [abs_of_pos hq, zpow_eq_mul_ulp] at hle
  have hdiv : ((2 ^ 52 : ℤ) : ℚ) ≤ q / 2 ^ (f64Exponent q - 52) := by
    rw [le_div_iff₀ (ulp_pos _)]
    exact hle
  have hr := roundHalfEven_mono hdiv
  rw [roundHalfEven_intCast] at hr
  rw [zpow_eq_mul_ulp]
  unfold roundF64
  exact mul_le_mul_of_nonneg_right (by exact_mod_cast hr) (ulp_pos _).le

/-- A negative number is rounded to at least the lower end of its binade. -/
theorem neg_zpow_le_roundF64 {q : ℚ} (hq : q < 0) :
    -(2 : ℚ) ^ (f64Exponent q + 1) ≤ roundF64 q := by
  have hlt := abs_lt_zpow_f64Exponent q
  rw [abs_of_neg hq, zpow_succ_eq_mul_ulp] at hlt
  have hdiv : ((-(2 ^ 53) : ℤ) : ℚ) ≤ q / 2 ^ (f64Exponent q - 52) := by
    rw [le_div_iff₀ (ulp_pos _)]
    push_cast at hlt ⊢
    linarith
  have hr := roundHalfEven_mono hdiv
  rw [roundHalfEven_intCast] at hr
  rw [zpow_succ_eq_mul_ulp]
  unfold roundF64
  have := mul_le_mul_of_nonneg_right
    (show ((-(2 ^ 53) : ℤ) : ℚ) ≤ (roundHalfEven (q / 2 ^ (f64Exponent q - 52)) : ℚ) by
      exact_mod_cast hr) (ulp_pos (f64Exponent q)).le
  push_cast at this ⊢
  linarith

/-- A negative number below the subnormal range is rounded to at most the
upper end of its binade. -/
theorem roundF64_le_neg_zpow {q : ℚ} (hq : q < 0) (he : -1022 < f64Exponent q) :
    roundF64 q ≤ -(2 : ℚ) ^ f64Exponent q := by
  have hle := zpow_f64Exponent_le q hq.ne he
  rw [abs_of_neg hq, zpow_eq_mul_ulp] at hle
  have hdiv : q / 2 ^ (f64Exponent q - 52) ≤ ((-(2 ^ 52) : ℤ) : ℚ) := by
    rw [div_le_iff₀ (ulp_pos _)]
    push_cast at hle ⊢
    linarith
  have hr := roundHalfEven_mono hdiv
  rw [roundHalfEven_intCast] at hr
  rw [zpow_eq_mul_ulp]
  unfold roundF64
  have := mul_le_mul_of_nonneg_right
    (show (roundHalfEven (q / 2 ^ (f64Exponent q - 52)) : ℚ) ≤ ((-(2 ^ 52) : ℤ) : ℚ) by
      exact_mod_cast hr) (ulp_pos (f64Exponent q)).le
  push_cast at this ⊢
  linarith

theorem roundF64_le_of_exponent_eq {a b : ℚ} (he : f64Exponent a = f64Exponent b)
    (h : a ≤ b) : roundF64 a ≤ roundF64 b := by
  unfold roundF64
  rw [he]
  have hdiv : a / 2 ^ (f64Exponent b - 52) ≤ b / 2 ^ (f64Exponent b - 52) :=
    div_le_div_of_nonneg_right h (ulp_pos _).le
  exact mul_le_mul_of_nonneg_right (by exact_mod_cast roundHalfEven_mono hdiv) (ulp_pos _).le

/-- Rounding to a double is monotone. -/
theorem roundF64_mono : Monotone roundF64 := by
  intro a b h
  rcases le_or_lt a 0 with ha | ha
  · rcases le_or_lt 0 b with hb | hb
    · exact (roundF64_nonpos ha).trans (roundF64_nonneg hb)
    · -- both negative
      have ha' : a < 0 := lt_of_le_of_lt h hb
      have habs : |b| ≤ |a| := by
        rw [abs_of_neg hb, abs_of_neg ha']
        linarith
      have hexp := f64Exponent_mono hb.ne habs
      rcases eq_or_lt_of_le hexp with heq | hlt
      · exact roundF64_le_of_exponent_eq heq.symm h
      · have h1 := roundF64_le_neg_zpow ha' (lt_of_le_of_lt (f64Exponent_ge b) hlt)
        have h2 := neg_zpow_le_roundF64 hb
        have h3 : (2 : ℚ) ^ (f64Exponent b + 1) ≤ 2 ^ f64Exponent a :=
          zpow_le_zpow_right₀ (by norm_num) (by omega)
        linarith
  · have hb : 0 < b := lt_of_lt_of_le ha h
    have habs : |a| ≤ |b| := by
      rw [abs_of_pos ha, abs_of_pos hb]
      exact h
    have hexp := f64Exponent_mono ha.ne' habs
    rcases eq_or_lt_of_le hexp with heq | hlt
    · exact roundF64_le_of_exponent_eq heq h
    · have h1 := roundF64_le_zpow ha
      have h2 := zpow_le_roundF64 hb (lt_of_le_of_lt (f64Exponent_ge a) hlt)
      have h3 : (2 : ℚ) ^ (f64Exponent a + 1) ≤ 2 ^ f64Exponent b :=
        zpow_le_zpow_right₀ (by norm_num) (by omega)
      linarith

/-- A positive number in the binade of exponent `e` whose quotient by the
spacing `2 ^ (e - 52)` lies within one half of the integer `m` is rounded to
`m * 2 ^ (e - 52)`, and that double is finite when `e ≤ 1022`. -/
theorem toF64_eq_of_near (q d : ℚ) (e m : ℤ) (he : -1022 ≤ e) (he' : e ≤ 1022)
    (h1 : (2 : ℚ) ^ e ≤ q) (h2 : q < 2 ^ (e + 1))
    (hlo : (m : ℚ) - 1 / 2 < q / 2 ^ (e - 52)) (hhi : q / 2 ^ (e - 52) < (m : ℚ) + 1 / 2)
    (hd : d = (m : ℚ) * 2 ^ (e - 52)) : toF64 q = some d := by
  have hq : 0 < q := lt_of_lt_of_le (zpow_pos (by norm_num) _) h1
  have hlog : Int.log 2 |q| = e := by
    rw [abs_of_pos hq]
    apply le_antisymm
    · have := (Int.lt_zpow_iff_log_lt (b := 2) (by norm_num) hq (x := e + 1)).1
        (by rw [Nat.cast_ofNat]; exact h2)
      omega
    · exact (Int.zpow_le_iff_le_log (b := 2) (by norm_num) hq).1
        (by rw [Nat.cast_ofNat]; exact h1)
  have hexp : f64Exponent q = e := by
    unfold f64Exponent
    rw [hlog]
    exact max_eq_left he
  have hround : roundF64 q = d := by
    unfold roundF64
    rw [hexp, roundHalfEven_eq_of_near _ m hlo hhi, hd]
  have hle : roundF64 q ≤ 2 ^ (e + 1) := by
    have := roundF64_le_zpow hq
    rwa [hexp] at this
  have hlt : |roundF64 q| < 2 ^ (1024 : ℤ) := by
    rw [abs_of_nonneg (roundF64_nonneg hq.le)]
    refine lt_of_le_of_lt hle (zpow_lt_zpow_right₀ (by norm_num) (by omega))
  unfold toF64
  rw [if_pos hlt, hround]

/-! ## The layout in doubles at frame 380 x 300, image 1000 x 600, gridSize 5 -/

theorem gapTotalF64_example : gapTotalF64 CONFIG_grid 5 = some 8 := by
  have h1 : f64Sub ((5 : ℕ) : ℚ) 1 = some 4 :=
    toF64_eq_of_near _ _ 2 (2 ^ 52) (by norm_num) (by norm_num) (by norm_num) (by norm_num)
      (by norm_num) (by norm_num) (by norm_num)
  have h2 : f64Mul 4 2 = some 8 :=
    toF64_eq_of_near _ _ 3 (2 ^ 52) (by norm_num) (by norm_num) (by norm_num) (by norm_num)
      (by norm_num) (by norm_num) (by norm_num)
  simp only [gapTotalF64, CONFIG_grid, h1, Option.bind_eq_bind, Option.some_bind, h2]

theorem contentBoxF64_example :
    contentBoxF64 CONFIG_grid
      { frameWidth := 380, frameHeight := 300, innerWidth := 1024, innerHeight := 768 }
      = some (324, 244) := by
  have hw : jsOr 380 1024 = 380 := by norm_num [jsOr]
  have hh : jsOr 300 768 = 300 := by norm_num [jsOr]
  have h1 : f64Sub 380 40 = some 340 :=
    toF64_eq_of_near _ _ 8 (340 * 2 ^ 44) (by norm_num) (by norm_num) (by norm_num) (by norm_num)
      (by norm_num) (by norm_num) (by norm_num)
  have h2 : f64Sub 300 40 = some 260 :=
    toF64_eq_of_near _ _ 8 (260 * 2 ^ 44) (by norm_num) (by norm_num) (by norm_num) (by norm_num)
      (by norm_num) (by norm_num) (by norm_num)
  have h3 : f64Sub 340 16 = some 324 :=
    toF64_eq_of_near _ _ 8 (324 * 2 ^ 44) (by norm_num) (by norm_num) (by norm_num) (by norm_num)
      (by norm_num) (by norm_num) (by norm_num)
  have h4 : f64Sub 260 16 = some 244 :=
    toF64_eq_of_near _ _ 7 (244 * 2 ^ 45) (by norm_num) (by norm_num) (by norm_num) (by norm_num)
      (by norm_num) (by norm_num) (by norm_num)
  simp only [contentBoxF64, CONFIG_grid, hw, hh, h1, h2, h3, h4, Option.bind_eq_bind,
    Option.some_bind, Option.pure_def]

theorem fittedContentF64_example :
    fittedContentF64 CONFIG_grid
      { frameWidth := 380, frameHeight := 300, innerWidth := 1024, innerHeight := 768 }
      { width := 1000, height := 600 } = some (324, (1709960483517235 / 8796093022208)) := by
  have h1 : f64Div 1000 600 = some (7505999378950827 / 4503599627370496) := by
    unfold f64Div
    rw [if_neg (by norm_num)]
    exact toF64_eq_of_near _ _ 0 7505999378950827 (by norm_num) (by norm_num) (by norm_num) (by norm_num)
      (by norm_num) (by norm_num) (by norm_num)
  have h2 : f64Div 324 244 = some (2990094834565657 / 2251799813685248) := by
    unfold f64Div
    rw [if_neg (by norm_num)]
    exact toF64_eq_of_near _ _ 0 5980189669131314 (by norm_num) (by norm_num) (by norm_num) (by norm_num)
      (by norm_num) (by norm_num) (by norm_num)
  have hgt : ((7505999378950827 / 4503599627370496) : ℚ) > (2990094834565657 / 2251799813685248) := by norm_num
  have h3 : f64Div 324 (7505999378950827 / 4503599627370496) = some (1709960483517235 / 8796093022208) := by
    unfold f64Div
    rw [if_neg (by norm_num)]
    exact toF64_eq_of_near _ _ 7 6839841934068940 (by norm_num) (by norm_num) (by norm_num) (by norm_num)
      (by norm_num) (by norm_num) (by norm_num)
  unfold fittedContentF64
  rw [contentBoxF64_example]
  simp only [h1, h2, hgt, if_true, h3, Option.bind_eq_bind, Option.some_bind,
    Option.pure_def]

theorem availableSizeF64_example :
    availableSizeF64 CONFIG_grid
      { frameWidth := 380, frameHeight := 300, innerWidth := 1024, innerHeight := 768 }
      { width := 1000, height := 600 } 5 = some (397, (8268327440875519 / 35184372088832)) := by
  have h1 : f64Mul 324 (5 / 4) = some 405 :=
    toF64_eq_of_near _ _ 8 (405 * 2 ^ 44) (by norm_num) (by norm_num) (by norm_num) (by norm_num)
      (by norm_num) (by norm_num) (by norm_num)
  have h2 : f64Mul (1709960483517235 / 8796093022208) (5 / 4) = some (8549802417586175 / 35184372088832) :=
    toF64_eq_of_near _ _ 7 8549802417586175 (by norm_num) (by norm_num) (by norm_num) (by norm_num)
      (by norm_num) (by norm_num) (by norm_num)
  have h3 : f64Sub 405 8 = some 397 :=
    toF64_eq_of_near _ _ 8 (397 * 2 ^ 44) (by norm_num) (by norm_num) (by norm_num) (by norm_num)
      (by norm_num) (by norm_num) (by norm_num)
  have h4 : f64Sub (8549802417586175 / 35184372088832) 8 = some (8268327440875519 / 35184372088832) :=
    toF64_eq_of_near _ _ 7 8268327440875519 (by norm_num) (by norm_num) (by norm_num) (by norm_num)
      (by norm_num) (by norm_num) (by norm_num)
  unfold availableSizeF64
  rw [gapTotalF64_example, fittedContentF64_example]
  simp only [CONFIG_grid, h1, h2, h3, h4, Option.bind_eq_bind, Option.some_bind,
    Option.pure_def]

/-- The layout in doubles at frame 380 x 300, image 1000 x 600, gridSize 5 and
the values of `CONFIG.grid`: the quotient `min(...) / gridSize` is rounded to
`46.99999999999999`, so `pieceSize` is 46. -/
theorem calculateLayoutF64_example :
    PuzzleRenderer.calculateLayoutF64 CONFIG_grid
      { frameWidth := 380, frameHeight := 300, innerWidth := 1024, innerHeight := 768 }
      { width := 1000, height := 600 } 5
      = some { pieceSize := 46, puzzleWidth := 254, puzzleHeight := 254 } := by
  have hmin : min (397 : ℚ) (8268327440875519 / 35184372088832) = (8268327440875519 / 35184372088832) := by norm_num
  have h1 : f64Div (8268327440875519 / 35184372088832) ((5 : ℕ) : ℚ) = some (6614661952700415 / 140737488355328) := by
    unfold f64Div
    rw [if_neg (by norm_num)]
    exact toF64_eq_of_near _ _ 5 6614661952700415 (by norm_num) (by norm_num) (by norm_num) (by norm_num)
      (by norm_num) (by norm_num) (by norm_num)
  have hfloor : ⌊((6614661952700415 / 140737488355328) : ℚ)⌋ = 46 := by
    rw [Int.floor_eq_iff]
    norm_num
  have h2 : f64Mul ((46 : ℤ) : ℚ) ((5 : ℕ) : ℚ) = some 230 :=
    toF64_eq_of_near _ _ 7 (230 * 2 ^ 45) (by norm_num) (by norm_num) (by norm_num) (by norm_num)
      (by norm_num) (by norm_num) (by norm_num)
  have h3 : f64Add 230 8 = some 238 :=
    toF64_eq_of_near _ _ 7 (238 * 2 ^ 45) (by norm_num) (by norm_num) (by norm_num) (by norm_num)
      (by norm_num) (by norm_num) (by norm_num)
  have h4 : f64Add 238 16 = some 254 :=
    toF64_eq_of_near _ _ 7 (254 * 2 ^ 45) (by norm_num) (by norm_num) (by norm_num) (by norm_num)
      (by norm_num) (by norm_num) (by norm_num)
  unfold PuzzleRenderer.calculateLayoutF64
  rw [gapTotalF64_example, availableSizeF64_example]
  simp only [CONFIG_grid, hmin, h1, hfloor, h2, h3, h4, Option.bind_eq_bind, Option.some_bind,
    Option.pure_def]

/-! ## The layout in doubles: structure of the result -/

theorem toF64_eq_some {q d : ℚ} (h : toF64 q = some d) : d = roundF64 q := by
  unfold toF64 at h
  split at h
  · exact (Option.some.inj h).symm
  · exact Option.noConfusion h

theorem f64Div_eq_some {a b d : ℚ} (h : f64Div a b = some d) : b ≠ 0 ∧ d = roundF64 (a / b) := by
  unfold f64Div at h
  split at h
  · exact Option.noConfusion h
  · rename_i hb
    exact ⟨hb, toF64_eq_some h⟩

theorem floor_roundF64_min_div (a b : ℚ) (n : Nat) :
    ⌊roundF64 (min a b / (n : ℚ))⌋
      = min ⌊roundF64 (a / (n : ℚ))⌋ ⌊roundF64 (b / (n : ℚ))⌋ := by
  have hpos : (0 : ℚ) ≤ (n : ℚ) := Nat.cast_nonneg n
  rw [← min_div_div_right hpos, roundF64_mono.map_min]
  exact Int.floor_mono.map_min

theorem fittedContentF64_eq_some {cfg : GridConfig} {vp : Viewport} {image : Image}
    {content : ℚ × ℚ} (h : fittedContentF64 cfg vp image = some content) :
    ∃ (box : ℚ × ℚ) (imageRatio containerRatio : ℚ),
      contentBoxF64 cfg vp = some box ∧
      f64Div image.width image.height = some imageRatio ∧
      f64Div box.1 box.2 = some containerRatio ∧
      ((imageRatio > containerRatio ∧ content.1 = box.1 ∧
          content.2 = roundF64 (box.1 / imageRatio)) ∨
        (imageRatio ≤ containerRatio ∧ content.2 = box.2 ∧
          content.1 = roundF64 (box.2 * imageRatio))) := by
  simp only [fittedContentF64, Option.bind_eq_bind, Option.bind_eq_some] at h
  obtain ⟨box, hbox, imageRatio, hir, containerRatio, hcr, hif⟩ := h
  refine ⟨box, imageRatio, containerRatio, hbox, hir, hcr, ?_⟩
  split at hif
  · rename_i hgt
    simp only [Option.bind_eq_bind, Option.bind_eq_some, Option.pure_def,
      Option.some.injEq] at hif
    obtain ⟨contentHeight, hch, rfl⟩ := hif
    exact Or.inl ⟨hgt, rfl, (f64Div_eq_some hch).2⟩
  · rename_i hgt
    simp only [Option.bind_eq_bind, Option.bind_eq_some, Option.pure_def,
      Option.some.injEq] at hif
    obtain ⟨contentWidth, hcw, rfl⟩ := hif
    exact Or.inr ⟨not_lt.1 hgt, rfl, toF64_eq_some hcw⟩

/-! ## The layout: claim C11 on the double-precision code -/

/-- Counterexample to C11: frame 380 x 300, image 1000 x 600, gridSize 5 and
the values of `CONFIG.grid`. The content box is 324 x 244 and positive, the
aspect-ratio-preserving fit of the image is 324 x 194.4, and the tile size
defined from it is `min (floor (397 / 5)) (floor (235 / 5)) = 47`; the code,
computing in doubles, gets `contentHeight = 194.39999999999998` and returns
`pieceSize = 46`. -/
theorem calculateLayoutF64_differs_from_spec :
    1 ≤ 5 ∧ (0 : ℚ) < 1000 ∧ (0 : ℚ) < 600 ∧
      contentBox CONFIG_grid
        { frameWidth := 380, frameHeight := 300, innerWidth := 1024, innerHeight := 768 } = (324, 244) ∧
      SpecAspectFit (324, 244) { width := 1000, height := 600 } 324 (972 / 5) ∧
      specTileSize CONFIG_grid 5 324 (972 / 5) = 47 ∧
      PuzzleRenderer.calculateLayoutF64 CONFIG_grid
        { frameWidth := 380, frameHeight := 300, innerWidth := 1024, innerHeight := 768 }
        { width := 1000, height := 600 } 5
        = some { pieceSize := 46, puzzleWidth := 254, puzzleHeight := 254 } := by
  refine ⟨by decide, by norm_num, by norm_num, ?_, ?_, ?_, calculateLayoutF64_example⟩
  · norm_num [contentBox, jsOr, CONFIG_grid]
  · norm_num [SpecAspectFit]
  · have h1 : ⌊((5 : ℚ) / 4 * 324 - 2 * (((5 : ℕ) : ℚ) - 1)) / ((5 : ℕ) : ℚ)⌋ = 79 := by
      rw [Int.floor_eq_iff]
      norm_num
    have h2 : ⌊((5 : ℚ) / 4 * (972 / 5) - 2 * (((5 : ℕ) : ℚ) - 1)) / ((5 : ℕ) : ℚ)⌋ = 47 := by
      rw [Int.floor_eq_iff]
      norm_num
    simp only [specTileSize, CONFIG_grid, h1, h2]
    decide

/-- C11, amended: `calculateLayout` computes the tile size in double
arithmetic. Whenever its result `L` is finite: the fitted content has one
dimension exactly equal to the content box's (the width when the rounded image
ratio exceeds the rounded container ratio, else the height) and the other is
the rounded quotient or product of that bound with the rounded image ratio;
the available sizes are `fl (fl (content * scaleFactor) - gapTotal)`; and
`pieceSize = floor (fl (min (availableWidth, availableHeight) / n))
= min (floor (fl (availableWidth / n))) (floor (fl (availableHeight / n)))`,
the minimum of the two per-dimension candidate sizes, where `fl` rounds to the
nearest double. -/
theorem calculateLayoutF64_pieceSize (cfg : GridConfig) (vp : Viewport) (image : Image)
    (gridSize : Nat) (L : Layout)
    (hL : PuzzleRenderer.calculateLayoutF64 cfg vp image gridSize = some L) :
    ∃ (box content available : ℚ × ℚ) (imageRatio containerRatio gapTotal : ℚ),
      contentBoxF64 cfg vp = some box ∧
      f64Div image.width image.height = some imageRatio ∧
      f64Div box.1 box.2 = some containerRatio ∧
      fittedContentF64 cfg vp image = some content ∧
      ((imageRatio > containerRatio ∧ content.1 = box.1 ∧
          content.2 = roundF64 (box.1 / imageRatio)) ∨
        (imageRatio ≤ containerRatio ∧ content.2 = box.2 ∧
          content.1 = roundF64 (box.2 * imageRatio))) ∧
      gapTotalF64 cfg gridSize = some gapTotal ∧
      availableSizeF64 cfg vp image gridSize = some available ∧
      available.1 = roundF64 (roundF64 (content.1 * cfg.scaleFactor) - gapTotal) ∧
      available.2 = roundF64 (roundF64 (content.2 * cfg.scaleFactor) - gapTotal) ∧
      L.pieceSize = ⌊roundF64 (min available.1 available.2 / (gridSize : ℚ))⌋ ∧
      L.pieceSize
        = min ⌊roundF64 (available.1 / (gridSize : ℚ))⌋
            ⌊roundF64 (available.2 / (gridSize : ℚ))⌋ := by
  simp only [PuzzleRenderer.calculateLayoutF64, Option.bind_eq_bind, Option.bind_eq_some,
    Option.pure_def, Option.some.injEq] at hL
  obtain ⟨gapTotal, hG, available, hav, quotient, hq, product, -, fcw, -, fch, -, pw, -, ph, -,
    rfl⟩ := hL
  have hav' := hav
  simp only [availableSizeF64, Option.bind_eq_bind, Option.bind_eq_some, Option.pure_def,
    Option.some.injEq] at hav'
  obtain ⟨gapTotal', hG', content, hcontent, cw, hcw, ch, hch, aw, haw, ah, hah, rfl⟩ := hav'
  have hGG : gapTotal' = gapTotal := Option.some.inj (hG'.symm.trans hG)
  subst hGG
  obtain ⟨box, imageRatio, containerRatio, hbox, hir, hcr, hfit⟩ :=
    fittedContentF64_eq_some hcontent
  have hquot : quotient = roundF64 (min aw ah / (gridSize : ℚ)) := (f64Div_eq_some hq).2
  refine ⟨box, content, (aw, ah), imageRatio, containerRatio, gapTotal', hbox, hir, hcr,
    hcontent, hfit, hG, hav, ?_, ?_, ?_, ?_⟩
  · show aw = _
    rw [toF64_eq_some haw, toF64_eq_some hcw]
  · show ah = _
    rw [toF64_eq_some hah, toF64_eq_some hch]
  · show ⌊quotient⌋ = _
    rw [hquot]
  · show ⌊quotient⌋ = _
    rw [hquot]
    exact floor_roundF64_min_div aw ah gridSize

/-- Witness of the amended C11: at frame 380 x 300, image 1000 x 600,
gridSize 5 the code's available sizes are 397 and 234.99999999999997, and
`pieceSize = 46` is the minimum of the two candidates. -/
theorem calculateLayoutF64_pieceSize_witness :
    PuzzleRenderer.calculateLayoutF64 CONFIG_grid
        { frameWidth := 380, frameHeight := 300, innerWidth := 1024, innerHeight := 768 }
        { width := 1000, height := 600 } 5
        = some { pieceSize := 46, puzzleWidth := 254, puzzleHeight := 254 } ∧
      (46 : ℤ) = min ⌊roundF64 (397 / ((5 : ℕ) : ℚ))⌋
          ⌊roundF64 ((8268327440875519 / 35184372088832) / ((5 : ℕ) : ℚ))⌋ := by
  refine ⟨calculateLayoutF64_example, ?_⟩
  obtain ⟨box, content, available, imageRatio, containerRatio, gapTotal, -, -, -, -, -, -,
    hav, -, -, -, hmin⟩ := calculateLayoutF64_pieceSize _ _ _ _ _ calculateLayoutF64_example
  rw [availableSizeF64_example] at hav
  cases hav
  exact hmin

/-! ## The layout in doubles where the exact arithmetic was evaluated -/

/-- The counterpart of `toF64_eq_of_near` for a negative number. -/
theorem toF64_eq_of_near_neg (q d : ℚ) (e m : ℤ) (he : -1022 ≤ e) (he' : e ≤ 1022)
    (h1 : q ≤ -(2 : ℚ) ^ e) (h2 : -(2 : ℚ) ^ (e + 1) < q)
    (hlo : (m : ℚ) - 1 / 2 < q / 2 ^ (e - 52)) (hhi : q / 2 ^ (e - 52) < (m : ℚ) + 1 / 2)
    (hd : d = (m : ℚ) * 2 ^ (e - 52)) : toF64 q = some d := by
  have hq : q < 0 := lt_of_le_of_lt h1 (neg_neg_of_pos (zpow_pos (by norm_num) _))
  have hpos : 0 < -q := neg_pos.2 hq
  have hlog : Int.log 2 |q| = e := by
    rw [abs_of_neg hq]
    apply le_antisymm
    · have := (Int.lt_zpow_iff_log_lt (b := 2) (by norm_num) hpos (x := e + 1)).1
        (by rw [Nat.cast_ofNat]; linarith)
      omega
    · exact (Int.zpow_le_iff_le_log (b := 2) (by norm_num) hpos).1
        (by rw [Nat.cast_ofNat]; linarith)
  have hexp : f64Exponent q = e := by
    unfold f64Exponent
    rw [hlog]
    exact max_eq_left he
  have hround : roundF64 q = d := by
    unfold roundF64
    rw [hexp, roundHalfEven_eq_of_near _ m hlo hhi, hd]
  have hge : -(2 : ℚ) ^ (e + 1) ≤ roundF64 q := by
    have := neg_zpow_le_roundF64 hq
    rwa [hexp] at this
  have hlt : |roundF64 q| < 2 ^ (1024 : ℤ) := by
    rw [abs_of_nonpos (roundF64_nonpos hq.le)]
    have h3 : (2 : ℚ) ^ (e + 1) < 2 ^ (1024 : ℤ) :=
      zpow_lt_zpow_right₀ (by norm_num) (by omega)
    linarith
  unfold toF64
  rw [if_pos hlt, hround]

/-- How `contentBoxF64` evaluates, given the results of its four
subtractions. -/
theorem contentBoxF64_intro (cfg : GridConfig) (vp : Viewport)
    (maxWidth maxHeight maxContentWidth maxContentHeight : ℚ)
    (h1 : f64Sub (jsOr vp.frameWidth vp.innerWidth) 40 = some maxWidth)
    (h2 : f64Sub (jsOr vp.frameHeight vp.innerHeight) 40 = some maxHeight)
    (h3 : f64Sub maxWidth cfg.padding = some maxContentWidth)
    (h4 : f64Sub maxHeight cfg.padding = some maxContentHeight) :
    contentBoxF64 cfg vp = some (maxContentWidth, maxContentHeight) := by
  simp only [contentBoxF64, h1, h2, h3, h4, Option.bind_eq_bind, Option.some_bind,
    Option.pure_def]

/-- How `fittedContentF64` evaluates in the branch
`imageRatio > containerRatio`. -/
theorem fittedContentF64_intro_width (cfg : GridConfig) (vp : Viewport) (image : Image)
    (box : ℚ × ℚ) (imageRatio containerRatio contentHeight : ℚ)
    (hbox : contentBoxF64 cfg vp = some box)
    (hir : f64Div image.width image.height = some imageRatio)
    (hcr : f64Div box.1 box.2 = some containerRatio)
    (hgt : imageRatio > containerRatio)
    (hch : f64Div box.1 imageRatio = some contentHeight) :
    fittedContentF64 cfg vp image = some (box.1, contentHeight) := by
  simp only [fittedContentF64, hbox, hir, hcr, hgt, if_true, hch, Option.bind_eq_bind,
    Option.some_bind, Option.pure_def]

/-- How `availableSizeF64` evaluates, given the results of its operations. -/
theorem availableSizeF64_intro (cfg : GridConfig) (vp : Viewport) (image : Image)
    (gridSize : Nat) (gapTotal : ℚ) (content : ℚ × ℚ)
    (contentWidth contentHeight availableWidth availableHeight : ℚ)
    (hG : gapTotalF64 cfg gridSize = some gapTotal)
    (hcontent : fittedContentF64 cfg vp image = some content)
    (h1 : f64Mul content.1 cfg.scaleFactor = some contentWidth)
    (h2 : f64Mul content.2 cfg.scaleFactor = some contentHeight)
    (h3 : f64Sub contentWidth gapTotal = some availableWidth)
    (h4 : f64Sub contentHeight gapTotal = some availableHeight) :
    availableSizeF64 cfg vp image gridSize = some (availableWidth, availableHeight) := by
  simp only [availableSizeF64, hG, hcontent, h1, h2, h3, h4, Option.bind_eq_bind,
    Option.some_bind, Option.pure_def]

/-- How `PuzzleRenderer.calculateLayoutF64` evaluates, given the results of
its operations. -/
theorem calculateLayoutF64_intro (cfg : GridConfig) (vp : Viewport) (image : Image)
    (gridSize : Nat) (gapTotal : ℚ) (available : ℚ × ℚ)
    (quotient product finalContent puzzleSize : ℚ)
    (hG : gapTotalF64 cfg gridSize = some gapTotal)
    (hav : availableSizeF64 cfg vp image gridSize = some available)
    (hq : f64Div (min available.1 available.2) (gridSize : ℚ) = some quotient)
    (hprod : f64Mul ((⌊quotient⌋ : ℤ) : ℚ) (gridSize : ℚ) = some product)
    (hf : f64Add product gapTotal = some finalContent)
    (hp : f64Add finalContent cfg.padding = some puzzleSize) :
    PuzzleRenderer.calculateLayoutF64 cfg vp image gridSize
      = some { pieceSize := ⌊quotient⌋, puzzleWidth := puzzleSize,
               puzzleHeight := puzzleSize } := by
  simp only [PuzzleRenderer.calculateLayoutF64, hG, hav, hq, hprod, hf, hp,
    Option.bind_eq_bind, Option.some_bind, Option.pure_def]

theorem contentBoxF64_example_frame (innerWidth innerHeight : ℚ) :
    contentBoxF64 CONFIG_grid
      { frameWidth := 1000, frameHeight := 800, innerWidth := innerWidth,
        innerHeight := innerHeight }
      = some (944, 744) := by
  have hw : jsOr 1000 innerWidth = 1000 := by norm_num [jsOr]
  have hh : jsOr 800 innerHeight = 800 := by norm_num [jsOr]
  have h1 : f64Sub 1000 40 = some 960 :=
    toF64_eq_of_near _ _ 9 (8444249301319680) (by norm_num) (by norm_num) (by norm_num) (by norm_num)
      (by norm_num) (by norm_num) (by norm_num)
  have h2 : f64Sub 800 40 = some 760 :=
    toF64_eq_of_near _ _ 9 (6685030696878080) (by norm_num) (by norm_num) (by norm_num) (by norm_num)
      (by norm_num) (by norm_num) (by norm_num)
  have h3 : f64Sub 960 16 = some 944 :=
    toF64_eq_of_near _ _ 9 (8303511812964352) (by norm_num) (by norm_num) (by norm_num) (by norm_num)
      (by norm_num) (by norm_num) (by norm_num)
  have h4 : f64Sub 760 16 = some 744 :=
    toF64_eq_of_near _ _ 9 (6544293208522752) (by norm_num) (by norm_num) (by norm_num) (by norm_num)
      (by norm_num) (by norm_num) (by norm_num)
  refine contentBoxF64_intro _ _ 960 760 944 744 ?_ ?_ h3 h4
  · show f64Sub (jsOr 1000 innerWidth) 40 = some 960
    rw [hw]
    exact h1
  · show f64Sub (jsOr 800 innerHeight) 40 = some 760
    rw [hh]
    exact h2

theorem fittedContentF64_example_frame (innerWidth innerHeight : ℚ) :
    fittedContentF64 CONFIG_grid
      { frameWidth := 1000, frameHeight := 800, innerWidth := innerWidth,
        innerHeight := innerHeight }
      { width := 1600, height := 1200 } = some (944, 708) := by
  have h1 : f64Div 1600 1200 = some (6004799503160661 / 4503599627370496) := by
    unfold f64Div
    rw [if_neg (by norm_num)]
    exact toF64_eq_of_near _ _ 0 (6004799503160661) (by norm_num) (by norm_num) (by norm_num) (by norm_num)
      (by norm_num) (by norm_num) (by norm_num)
  have h2 : f64Div 944 744 = some (5714244688491597 / 4503599627370496) := by
    unfold f64Div
    rw [if_neg (by norm_num)]
    exact toF64_eq_of_near _ _ 0 (5714244688491597) (by norm_num) (by norm_num) (by norm_num) (by norm_num)
      (by norm_num) (by norm_num) (by norm_num)
  have hgt : ((6004799503160661 / 4503599627370496) : ℚ) > (5714244688491597 / 4503599627370496) := by norm_num
  have h3 : f64Div 944 (6004799503160661 / 4503599627370496) = some 708 := by
    unfold f64Div
    rw [if_neg (by norm_num)]
    exact toF64_eq_of_near _ _ 9 (6227633859723264) (by norm_num) (by norm_num) (by norm_num) (by norm_num)
      (by norm_num) (by norm_num) (by norm_num)
  exact fittedContentF64_intro_width _ _ _ (944, 744) (6004799503160661 / 4503599627370496) (5714244688491597 / 4503599627370496) 708
    (contentBoxF64_example_frame innerWidth innerHeight) h1 h2 hgt h3

theorem availableSizeF64_example_frame (innerWidth innerHeight : ℚ) :
    availableSizeF64 CONFIG_grid
      { frameWidth := 1000, frameHeight := 800, innerWidth := innerWidth,
        innerHeight := innerHeight }
      { width := 1600, height := 1200 } 5 = some (1172, 877) := by
  have h1 : f64Mul 944 (5 / 4) = some 1180 :=
    toF64_eq_of_near _ _ 10 (5189694883102720) (by norm_num) (by norm_num) (by norm_num) (by norm_num)
      (by norm_num) (by norm_num) (by norm_num)
  have h2 : f64Mul 708 (5 / 4) = some 885 :=
    toF64_eq_of_near _ _ 9 (7784542324654080) (by norm_num) (by norm_num) (by norm_num) (by norm_num)
      (by norm_num) (by norm_num) (by norm_num)
  have h3 : f64Sub 1180 8 = some 1172 :=
    toF64_eq_of_near _ _ 10 (5154510511013888) (by norm_num) (by norm_num) (by norm_num) (by norm_num)
      (by norm_num) (by norm_num) (by norm_num)
  have h4 : f64Sub 885 8 = some 877 :=
    toF64_eq_of_near _ _ 9 (7714173580476416) (by norm_num) (by norm_num) (by norm_num) (by norm_num)
      (by norm_num) (by norm_num) (by norm_num)
  exact availableSizeF64_intro _ _ _ _ 8 (944, 708) 1180 885 1172 877
    gapTotalF64_example (fittedContentF64_example_frame innerWidth innerHeight) h1 h2 h3 h4

/-- The layout in doubles at frame 1000 x 800, image 1600 x 1200,
gridSize 5 and the values of `CONFIG.grid`: the doubles give the
same `pieceSize = 175` and 899 x 899 board as the exact arithmetic. -/
theorem calculateLayoutF64_example_frame (innerWidth innerHeight : ℚ) :
    PuzzleRenderer.calculateLayoutF64 CONFIG_grid
      { frameWidth := 1000, frameHeight := 800, innerWidth := innerWidth,
        innerHeight := innerHeight }
      { width := 1600, height := 1200 } 5
      = some { pieceSize := 175, puzzleWidth := 899, puzzleHeight := 899 } := by
  have hmin : min (1172 : ℚ) 877 = 877 := by norm_num
  have h1 : f64Div 877 ((5 : ℕ) : ℚ) = some (6171338864381133 / 35184372088832) := by
    unfold f64Div
    rw [if_neg (by norm_num)]
    exact toF64_eq_of_near _ _ 7 (6171338864381133) (by norm_num) (by norm_num) (by norm_num) (by norm_num)
      (by norm_num) (by norm_num) (by norm_num)
  have hfloor : ⌊((6171338864381133 / 35184372088832) : ℚ)⌋ = 175 := by
    rw [Int.floor_eq_iff]
    norm_num
  have h2 : f64Mul ((175 : ℤ) : ℚ) ((5 : ℕ) : ℚ) = some 875 :=
    toF64_eq_of_near _ _ 9 (7696581394432000) (by norm_num) (by norm_num) (by norm_num) (by norm_num)
      (by norm_num) (by norm_num) (by norm_num)
  have h3 : f64Add 875 8 = some 883 :=
    toF64_eq_of_near _ _ 9 (7766950138609664) (by norm_num) (by norm_num) (by norm_num) (by norm_num)
      (by norm_num) (by norm_num) (by norm_num)
  have h4 : f64Add 883 16 = some 899 :=
    toF64_eq_of_near _ _ 9 (7907687626964992) (by norm_num) (by norm_num) (by norm_num) (by norm_num)
      (by norm_num) (by norm_num) (by norm_num)
  have h := calculateLayoutF64_intro CONFIG_grid
    { frameWidth := 1000, frameHeight := 800, innerWidth := innerWidth,
        innerHeight := innerHeight }
    { width := 1600, height := 1200 } 5 8 (1172, 877) (6171338864381133 / 35184372088832) 875 883 899
    gapTotalF64_example (availableSizeF64_example_frame innerWidth innerHeight)
    (by
      show f64Div (min (1172 : ℚ) 877) ((5 : ℕ) : ℚ) = some (6171338864381133 / 35184372088832)
      rw [hmin]
      exact h1)
    (by
      rw [hfloor]
      exact h2) h3 h4
  rw [hfloor] at h
  exact h

theorem contentBoxF64_example_degenerate :
    contentBoxF64 CONFIG_grid
      { frameWidth := 0, frameHeight := 0, innerWidth := 0, innerHeight := 0 }
      = some ((-56), (-56)) := by
  have hw : jsOr 0 0 = 0 := by norm_num [jsOr]
  have hh : jsOr 0 0 = 0 := by norm_num [jsOr]
  have h1 : f64Sub 0 40 = some (-40) :=
    toF64_eq_of_near_neg _ _ 5 (-5629499534213120) (by norm_num) (by norm_num) (by norm_num) (by norm_num)
      (by norm_num) (by norm_num) (by norm_num)
  have h2 : f64Sub 0 40 = some (-40) :=
    toF64_eq_of_near_neg _ _ 5 (-5629499534213120) (by norm_num) (by norm_num) (by norm_num) (by norm_num)
      (by norm_num) (by norm_num) (by norm_num)
  have h3 : f64Sub (-40) 16 = some (-56) :=
    toF64_eq_of_near_neg _ _ 5 (-7881299347898368) (by norm_num) (by norm_num) (by norm_num) (by norm_num)
      (by norm_num) (by norm_num) (by norm_num)
  have h4 : f64Sub (-40) 16 = some (-56) :=
    toF64_eq_of_near_neg _ _ 5 (-7881299347898368) (by norm_num) (by norm_num) (by norm_num) (by norm_num)
      (by norm_num) (by norm_num) (by norm_num)
  refine contentBoxF64_intro _ _ (-40) (-40) (-56) (-56) ?_ ?_ h3 h4
  · show f64Sub (jsOr 0 0) 40 = some (-40)
    rw [hw]
    exact h1
  · show f64Sub (jsOr 0 0) 40 = some (-40)
    rw [hh]
    exact h2

theorem fittedContentF64_example_degenerate :
    fittedContentF64 CONFIG_grid
      { frameWidth := 0, frameHeight := 0, innerWidth := 0, innerHeight := 0 }
      { width := 1600, height := 1200 } = some ((-56), (-42)) := by
  have h1 : f64Div 1600 1200 = some (6004799503160661 / 4503599627370496) := by
    unfold f64Div
    rw [if_neg (by norm_num)]
    exact toF64_eq_of_near _ _ 0 (6004799503160661) (by norm_num) (by norm_num) (by norm_num) (by norm_num)
      (by norm_num) (by norm_num) (by norm_num)
  have h2 : f64Div (-56) (-56) = some 1 := by
    unfold f64Div
    rw [if_neg (by norm_num)]
    exact toF64_eq_of_near _ _ 0 (4503599627370496) (by norm_num) (by norm_num) (by norm_num) (by norm_num)
      (by norm_num) (by norm_num) (by norm_num)
  have hgt : ((6004799503160661 / 4503599627370496) : ℚ) > 1 := by norm_num
  have h3 : f64Div (-56) (6004799503160661 / 4503599627370496) = some (-42) := by
    unfold f64Div
    rw [if_neg (by norm_num)]
    exact toF64_eq_of_near_neg _ _ 5 (-5910974510923776) (by norm_num) (by norm_num) (by norm_num) (by norm_num)
      (by norm_num) (by norm_num) (by norm_num)
  exact fittedContentF64_intro_width _ _ _ ((-56), (-56)) (6004799503160661 / 4503599627370496) 1 (-42)
    (contentBoxF64_example_degenerate) h1 h2 hgt h3

theorem availableSizeF64_example_degenerate :
    availableSizeF64 CONFIG_grid
      { frameWidth := 0, frameHeight := 0, innerWidth := 0, innerHeight := 0 }
      { width := 1600, height := 1200 } 5 = some ((-78), (-121 / 2)) := by
  have h1 : f64Mul (-56) (5 / 4) = some (-70) :=
    toF64_eq_of_near_neg _ _ 6 (-4925812092436480) (by norm_num) (by norm_num) (by norm_num) (by norm_num)
      (by norm_num) (by norm_num) (by norm_num)
  have h2 : f64Mul (-42) (5 / 4) = some (-105 / 2) :=
    toF64_eq_of_near_neg _ _ 5 (-7388718138654720) (by norm_num) (by norm_num) (by norm_num) (by norm_num)
      (by norm_num) (by norm_num) (by norm_num)
  have h3 : f64Sub (-70) 8 = some (-78) :=
    toF64_eq_of_near_neg _ _ 6 (-5488762045857792) (by norm_num) (by norm_num) (by norm_num) (by norm_num)
      (by norm_num) (by norm_num) (by norm_num)
  have h4 : f64Sub (-105 / 2) 8 = some (-121 / 2) :=
    toF64_eq_of_near_neg _ _ 5 (-8514618045497344) (by norm_num) (by norm_num) (by norm_num) (by norm_num)
      (by norm_num) (by norm_num) (by norm_num)
  exact availableSizeF64_intro _ _ _ _ 8 ((-56), (-42)) (-70) (-105 / 2) (-78) (-121 / 2)
    gapTotalF64_example (fittedContentF64_example_degenerate) h1 h2 h3 h4

/-- The layout in doubles at a degenerate viewport, frame and window 0 x 0,
with image 1600 x 1200, gridSize 5 and the values of `CONFIG.grid`: the
doubles give the same `pieceSize = -16` as the exact arithmetic. -/
theorem calculateLayoutF64_example_degenerate :
    PuzzleRenderer.calculateLayoutF64 CONFIG_grid
      { frameWidth := 0, frameHeight := 0, innerWidth := 0, innerHeight := 0 }
      { width := 1600, height := 1200 } 5
      = some { pieceSize := -16, puzzleWidth := (-56), puzzleHeight := (-56) } := by
  have hmin : min ((-78) : ℚ) (-121 / 2) = (-78) := by norm_num
  have h1 : f64Div (-78) ((5 : ℕ) : ℚ) = some (-8782019273372467 / 562949953421312) := by
    unfold f64Div
    rw [if_neg (by norm_num)]
    exact toF64_eq_of_near_neg _ _ 3 (-8782019273372467) (by norm_num) (by norm_num) (by norm_num) (by norm_num)
      (by norm_num) (by norm_num) (by norm_num)
  have hfloor : ⌊((-8782019273372467 / 562949953421312) : ℚ)⌋ = -16 := by
    rw [Int.floor_eq_iff]
    norm_num
  have h2 : f64Mul ((-16 : ℤ) : ℚ) ((5 : ℕ) : ℚ) = some (-80) :=
    toF64_eq_of_near_neg _ _ 6 (-5629499534213120) (by norm_num) (by norm_num) (by norm_num) (by norm_num)
      (by norm_num) (by norm_num) (by norm_num)
  have h3 : f64Add (-80) 8 = some (-72) :=
    toF64_eq_of_near_neg _ _ 6 (-5066549580791808) (by norm_num) (by norm_num) (by norm_num) (by norm_num)
      (by norm_num) (by norm_num) (by norm_num)
  have h4 : f64Add (-72) 16 = some (-56) :=
    toF64_eq_of_near_neg _ _ 5 (-7881299347898368) (by norm_num) (by norm_num) (by norm_num) (by norm_num)
      (by norm_num) (by norm_num) (by norm_num)
  have h := calculateLayoutF64_intro CONFIG_grid
    { frameWidth := 0, frameHeight := 0, innerWidth := 0, innerHeight := 0 }
    { width := 1600, height := 1200 } 5 8 ((-78), (-121 / 2)) (-8782019273372467 / 562949953421312) (-80) (-72) (-56)
    gapTotalF64_example (availableSizeF64_example_degenerate)
    (by
      show f64Div (min ((-78) : ℚ) (-121 / 2)) ((5 : ℕ) : ℚ) = some (-8782019273372467 / 562949953421312)
      rw [hmin]
      exact h1)
    (by
      rw [hfloor]
      exact h2) h3 h4
  rw [hfloor] at h
  exact h

end Puzzle
